import Mathlib

/-!
Verification development for the eTenders enrichment pipeline
(`type_coercer.py`, `cpv_list_checker.py`, `pdf_parser.py`, `main.py`,
`postgres_output.py`).

The Python code is shallowly embedded: dynamic record dictionaries become
association lists of `String × PyVal` in insertion order (Python 3.7+ dict
semantics), fallible operations return `Option`/`Except`, numeric values are
modelled exactly (`Int`, `ℚ`), and external collaborators (the Ollama HTTP
call, `json.loads`, the PDF fetch, the loaded CPV dictionary, the database
server) are parameters of the embedded functions.
-/

set_option maxHeartbeats 1000000

/-- Result of Python `float(...)`: finite values are modelled exactly as
rationals; the special values are separate constructors. -/
inductive PyFloat where
  | finite (q : ℚ)
  | inf
  | ninf
  | nan
deriving DecidableEq, Repr

/-- Python-like dynamic values passed between the pipeline stages.
Dictionaries are association lists in insertion order. -/
inductive PyVal where
  | none
  | str (s : String)
  | int (n : Int)
  | float (f : PyFloat)
  | bool (b : Bool)
  | dict (entries : List (String × PyVal))
  | list (items : List PyVal)

/-- `d.get(k)`: the binding of key `k` (keys are unique in records produced by
the pipeline, so first binding = the binding). -/
def dget (d : List (String × PyVal)) (k : String) : Option PyVal :=
  match d with
  | [] => Option.none
  | (k2, v) :: rest => if k2 = k then some v else dget rest k

/-- `d.get(k, default)`. -/
def dgetD (d : List (String × PyVal)) (k : String) (dflt : PyVal) : PyVal :=
  (dget d k).getD dflt

/-- `d[k] = v`: replace in place if the key exists (keeping its position),
else append — Python dict assignment semantics. -/
def dset (d : List (String × PyVal)) (k : String) (v : PyVal) : List (String × PyVal) :=
  match d with
  | [] => [(k, v)]
  | (k2, v2) :: rest => if k2 = k then (k2, v) :: rest else (k2, v2) :: dset rest k v

/-- Python truthiness. -/
def pyTruthy : PyVal → Bool
  | .none => false
  | .str s => !(s == "")
  | .int n => !(n == 0)
  | .float f =>
    match f with
    | .finite q => !(q == 0)
    | _ => true
  | .bool b => b
  | .dict es => !es.isEmpty
  | .list xs => !xs.isEmpty

/-- `x is None`. -/
def pyIsNone : PyVal → Bool
  | .none => true
  | _ => false

/-- ASCII whitespace, the characters matched by `\s` / stripped by `.strip()`
on the inputs this pipeline sees. -/
def isAsciiWS (c : Char) : Bool :=
  c == ' ' || c == Char.ofNat 9 || c == Char.ofNat 10 ||
  c == Char.ofNat 11 || c == Char.ofNat 12 || c == Char.ofNat 13

/-- `s.strip()` on the character list. -/
def stripChars (cs : List Char) : List Char :=
  ((cs.dropWhile isAsciiWS).reverse.dropWhile isAsciiWS).reverse

/-- `s.strip()`. -/
def pyStrip (s : String) : String := String.mk (stripChars s.data)

/-- Numeric value of a decimal digit character. -/
def digitVal (c : Char) : ℕ := c.toNat - 48

/-- Underscore character (legal between digits in Python numeric literals). -/
def uscoreChar : Char := Char.ofNat 95

/-- Consume further digits (with single underscores allowed between digits, as
in Python's `int`/`float` grammar), returning accumulated value, digit count
and the unconsumed remainder. -/
def digitsUC : List Char → ℕ → ℕ → ℕ × ℕ × List Char
  | [], acc, cnt => (acc, cnt, [])
  | c :: rest, acc, cnt =>
    if c.isDigit then digitsUC rest (acc * 10 + digitVal c) (cnt + 1)
    else if c = uscoreChar then
      match rest with
      | c2 :: rest2 =>
        if c2.isDigit then digitsUC rest2 (acc * 10 + digitVal c2) (cnt + 1)
        else (acc, cnt, c :: rest)
      | [] => (acc, cnt, c :: rest)
    else (acc, cnt, c :: rest)

/-- Digits (at least one, underscores allowed) consuming the whole input. -/
def parseUnsignedInt (cs : List Char) : Option ℕ :=
  match cs with
  | c :: rest =>
    if c.isDigit then
      match digitsUC rest (digitVal c) 1 with
      | (v, _, rest2) => if rest2.isEmpty then some v else Option.none
    else Option.none
  | [] => Option.none

/-- Python `int(s)` for a string argument (base 10): strip whitespace,
optional sign, digits; `Option.none` models the `ValueError`. -/
def pyIntOfString (s : String) : Option Int :=
  let cs := stripChars s.data
  match cs with
  | c :: rest =>
    if c = '+' then (parseUnsignedInt rest).map Int.ofNat
    else if c = '-' then (parseUnsignedInt rest).map (fun n => -(n : Int))
    else (parseUnsignedInt cs).map Int.ofNat
  | [] => Option.none

/-- Python `int(x)` over the modelled value universe; `Option.none` models the
`ValueError`/`TypeError` raised (and caught) at the call sites in
`coerce_types`.  Scraped record fields are strings, so only the `.str` case is
exercised by the pipeline. -/
def pyIntOfVal : PyVal → Option Int
  | .str s => pyIntOfString s
  | .int n => some n
  | .bool b => some (if b then 1 else 0)
  | .float (.finite q) => some (if q < 0 then ⌈q⌉ else ⌊q⌋)
  | _ => Option.none

/-- ASCII lowercasing, as used by the case-insensitive pieces the pipeline
relies on (`.lower()`, `re.IGNORECASE` inside `strptime`). -/
def toLowerChar (c : Char) : Char :=
  if 65 ≤ c.toNat ∧ c.toNat ≤ 90 then Char.ofNat (c.toNat + 32) else c

/-- Case-insensitively consume the (lowercase) word `w`, returning the rest. -/
def matchCIWord : List Char → List Char → Option (List Char)
  | [], cs => some cs
  | _ :: _, [] => Option.none
  | a :: w2, c :: cs2 => if toLowerChar c = a then matchCIWord w2 cs2 else Option.none

/-- Dot and sign characters of the float grammar. -/
def dotChar : Char := Char.ofNat 46

/-- Mantissa of Python's float grammar: `digits [. digits] | digits . | . digits`. -/
def parseMantissa (cs : List Char) : Option (ℚ × List Char) :=
  match cs with
  | c :: rest =>
    if c.isDigit then
      match digitsUC rest (digitVal c) 1 with
      | (ip, _, r1) =>
        match r1 with
        | d :: r2 =>
          if d = dotChar then
            match r2 with
            | c2 :: r3 =>
              if c2.isDigit then
                match digitsUC r3 (digitVal c2) 1 with
                | (fp, fc, r4) => some (mkRat ((ip * 10 ^ fc + fp : ℕ) : Int) (10 ^ fc), r4)
              else some ((ip : ℚ), r2)
            | [] => some ((ip : ℚ), [])
          else some ((ip : ℚ), r1)
        | [] => some ((ip : ℚ), [])
    else if c = dotChar then
      match rest with
      | c2 :: r3 =>
        if c2.isDigit then
          match digitsUC r3 (digitVal c2) 1 with
          | (fp, fc, r4) => some (mkRat ((fp : ℕ) : Int) (10 ^ fc), r4)
        else Option.none
      | [] => Option.none
    else Option.none
  | [] => Option.none

/-- Exponent part `（e|E) [sign] digits` of the float grammar. -/
def parseExpPart (cs : List Char) : Option (Int × List Char) :=
  match cs with
  | c :: rest =>
    if toLowerChar c = 'e' then
      match rest with
      | c2 :: r2 =>
        if c2 = '+' then
          match r2 with
          | c3 :: r3 =>
            if c3.isDigit then
              match digitsUC r3 (digitVal c3) 1 with
              | (v, _, r4) => some ((v : Int), r4)
            else Option.none
          | [] => Option.none
        else if c2 = '-' then
          match r2 with
          | c3 :: r3 =>
            if c3.isDigit then
              match digitsUC r3 (digitVal c3) 1 with
              | (v, _, r4) => some (-(v : Int), r4)
            else Option.none
          | [] => Option.none
        else if c2.isDigit then
          match digitsUC r2 (digitVal c2) 1 with
          | (v, _, r4) => some ((v : Int), r4)
        else Option.none
      | [] => Option.none
    else Option.none
  | [] => Option.none

/-- Python `float(s)`: strip, optional sign, then `inf`/`infinity`/`nan`
(case-insensitive) or mantissa with optional exponent, consuming everything.
`Option.none` models the `ValueError`. -/
def pyFloatOfString (s : String) : Option PyFloat :=
  let cs := stripChars s.data
  let signed : Bool × List Char :=
    match cs with
    | c :: rest =>
      if c = '+' then (false, rest)
      else if c = '-' then (true, rest)
      else (false, cs)
    | [] => (false, cs)
  let neg := signed.1
  let cs1 := signed.2
  match matchCIWord ("infinity").data cs1 with
  | some [] => some (if neg then PyFloat.ninf else PyFloat.inf)
  | _ =>
    match matchCIWord ("inf").data cs1 with
    | some [] => some (if neg then PyFloat.ninf else PyFloat.inf)
    | _ =>
      match matchCIWord ("nan").data cs1 with
      | some [] => some PyFloat.nan
      | _ =>
        match parseMantissa cs1 with
        | some (m, r1) =>
          match r1 with
          | [] => some (.finite (if neg then -m else m))
          | _ :: _ =>
            match parseExpPart r1 with
            | some (e, r2) =>
              if r2.isEmpty then
                some (.finite (if neg then -(m * (10 : ℚ) ^ e) else m * (10 : ℚ) ^ e))
              else Option.none
            | Option.none => Option.none
        | Option.none => Option.none

/-- `re.sub(r'[,\s]', '', s)` — remove commas and whitespace (and nothing
else: currency symbols are NOT removed by `coerce_types`). -/
def removeCommaWS (s : String) : String :=
  String.mk (s.data.filter (fun c => !(c == ',' || isAsciiWS c)))

/-- Rendering of a `PyFloat`, used only when `str()` is applied to a float
(unreachable for scraped records, whose fields are all strings); finite values
are rendered as rationals rather than in Python's shortest-roundtrip format. -/
def reprFloat : PyFloat → String
  | .finite q => toString q
  | .inf => "inf"
  | .ninf => "-inf"
  | .nan => "nan"

/-- Single-quote string used by Python `repr` of strings. -/
def squoteStr : String := String.singleton (Char.ofNat 39)

mutual

/-- `repr(v)` (escaping inside string reprs is not modelled; the pipeline
only ever applies `str()` to scraped string fields). -/
def pyReprVal : PyVal → String
  | .none => "None"
  | .str s => squoteStr ++ s ++ squoteStr
  | .int n => toString n
  | .float f => reprFloat f
  | .bool b => if b then "True" else "False"
  | .dict es => "\x7b" ++ pyReprEntries es ++ "\x7d"
  | .list xs => "[" ++ pyReprItems xs ++ "]"

/-- `repr` of dict entries, comma-separated. -/
def pyReprEntries : List (String × PyVal) → String
  | [] => ""
  | [kv] => squoteStr ++ kv.1 ++ squoteStr ++ ": " ++ pyReprVal kv.2
  | kv :: kv2 :: rest =>
    squoteStr ++ kv.1 ++ squoteStr ++ ": " ++ pyReprVal kv.2 ++ ", " ++
    pyReprEntries (kv2 :: rest)

/-- `repr` of list items, comma-separated. -/
def pyReprItems : List PyVal → String
  | [] => ""
  | [v] => pyReprVal v
  | v :: v2 :: rest => pyReprVal v ++ ", " ++ pyReprItems (v2 :: rest)

end

/-- Python `str(v)`. -/
def pyStrOfVal (v : PyVal) : String :=
  match v with
  | .str s => s
  | v2 => pyReprVal v2

/-! ### `parse_date` (`type_coercer.py`) and its `strptime` subset

`datetime.strptime` is modelled for exactly the four format strings appearing
in `parse_date`.  CPython's `_strptime` compiles a format into a regex
(`IGNORECASE`), with whitespace in the format becoming `\s+`, `%d` becoming
`(3[01]|[12]\d|0[1-9]|[1-9])`, `%m` `(1[0-2]|0[1-9]|[1-9])`, `%H`
`(2[0-3]|[0-1]\d|\d)`, `%M` `([0-5]\d|\d)`, `%S` `(6[0-1]|[0-5]\d|\d)`, `%Y`
four digits, `%a`/`%b` the abbreviated names, and `%Z` the known timezone
names (modelled as `gmt`/`utc`); the match must cover the whole string, and
the `datetime` constructor then validates the calendar date (second ≤ 59,
year within 1..9999, day within the month).  Alternations are modelled as
candidate lists tried in regex order with full backtracking into the
continuation (`List.findSome?`). -/

/-- Day-of-week abbreviations matched by `%a` (value unused). -/
def dayAbbrevs : List (List Char) :=
  [("mon").data, ("tue").data, ("wed").data, ("thu").data,
   ("fri").data, ("sat").data, ("sun").data]

/-- Month abbreviations matched by `%b`, with month numbers. -/
def monthAbbrevs : List (List Char × ℕ) :=
  [(("jan").data, 1), (("feb").data, 2), (("mar").data, 3), (("apr").data, 4),
   (("may").data, 5), (("jun").data, 6), (("jul").data, 7), (("aug").data, 8),
   (("sep").data, 9), (("oct").data, 10), (("nov").data, 11), (("dec").data, 12)]

/-- Timezone names matched by `%Z` (the locale-independent core). -/
def tzAbbrevs : List (List Char) := [("gmt").data, ("utc").data]

/-- Try each name, case-insensitively. -/
def matchNames (names : List (List Char)) (cs : List Char) : Option (List Char) :=
  names.findSome? (fun nm => matchCIWord nm cs)

/-- `%b`: month name giving its number. -/
def matchMonthName (cs : List Char) : Option (ℕ × List Char) :=
  monthAbbrevs.findSome? (fun p => (matchCIWord p.1 cs).map (fun r => (p.2, r)))

/-- `\s+`: one or more whitespace characters (maximal munch; all following
tokens in the formats reject whitespace, so no backtracking is needed). -/
def ws1 (cs : List Char) : Option (List Char) :=
  match cs with
  | c :: rest => if isAsciiWS c then some (rest.dropWhile isAsciiWS) else Option.none
  | [] => Option.none

/-- `%d` = `(3[01]|[12]\d|0[1-9]|[1-9])`: candidates in regex order. -/
def dayAlts (cs : List Char) : List (ℕ × List Char) :=
  (match cs with
   | c0 :: c1 :: rest =>
     (if c0 = '3' ∧ (c1 = '0' ∨ c1 = '1') then [(30 + digitVal c1, rest)] else []) ++
     (if (c0 = '1' ∨ c0 = '2') ∧ c1.isDigit then [(digitVal c0 * 10 + digitVal c1, rest)] else []) ++
     (if c0 = '0' ∧ c1.isDigit ∧ c1 ≠ '0' then [(digitVal c1, rest)] else [])
   | _ => []) ++
  (match cs with
   | c0 :: rest => if c0.isDigit ∧ c0 ≠ '0' then [(digitVal c0, rest)] else []
   | _ => [])

/-- `%m` = `(1[0-2]|0[1-9]|[1-9])`. -/
def monthAlts (cs : List Char) : List (ℕ × List Char) :=
  (match cs with
   | c0 :: c1 :: rest =>
     (if c0 = '1' ∧ (c1 = '0' ∨ c1 = '1' ∨ c1 = '2') then [(10 + digitVal c1, rest)] else []) ++
     (if c0 = '0' ∧ c1.isDigit ∧ c1 ≠ '0' then [(digitVal c1, rest)] else [])
   | _ => []) ++
  (match cs with
   | c0 :: rest => if c0.isDigit ∧ c0 ≠ '0' then [(digitVal c0, rest)] else []
   | _ => [])

/-- `%H` = `(2[0-3]|[0-1]\d|\d)`. -/
def hourAlts (cs : List Char) : List (ℕ × List Char) :=
  (match cs with
   | c0 :: c1 :: rest =>
     (if c0 = '2' ∧ (c1 = '0' ∨ c1 = '1' ∨ c1 = '2' ∨ c1 = '3') then [(20 + digitVal c1, rest)] else []) ++
     (if (c0 = '0' ∨ c0 = '1') ∧ c1.isDigit then [(digitVal c0 * 10 + digitVal c1, rest)] else [])
   | _ => []) ++
  (match cs with
   | c0 :: rest => if c0.isDigit then [(digitVal c0, rest)] else []
   | _ => [])

/-- `%M` = `([0-5]\d|\d)`. -/
def minuteAlts (cs : List Char) : List (ℕ × List Char) :=
  (match cs with
   | c0 :: c1 :: rest =>
     if c0.isDigit ∧ digitVal c0 ≤ 5 ∧ c1.isDigit then [(digitVal c0 * 10 + digitVal c1, rest)] else []
   | _ => []) ++
  (match cs with
   | c0 :: rest => if c0.isDigit then [(digitVal c0, rest)] else []
   | _ => [])

/-- `%S` = `(6[0-1]|[0-5]\d|\d)` (leap seconds pass the regex and are
rejected by the `datetime` constructor). -/
def secondAlts (cs : List Char) : List (ℕ × List Char) :=
  (match cs with
   | c0 :: c1 :: rest =>
     (if c0 = '6' ∧ (c1 = '0' ∨ c1 = '1') then [(60 + digitVal c1, rest)] else []) ++
     (if c0.isDigit ∧ digitVal c0 ≤ 5 ∧ c1.isDigit then [(digitVal c0 * 10 + digitVal c1, rest)] else [])
   | _ => []) ++
  (match cs with
   | c0 :: rest => if c0.isDigit then [(digitVal c0, rest)] else []
   | _ => [])

/-- `%Y`: exactly four digits. -/
def year4 (cs : List Char) : Option (ℕ × List Char) :=
  match cs with
  | a :: b :: c :: d :: rest =>
    if a.isDigit ∧ b.isDigit ∧ c.isDigit ∧ d.isDigit then
      some (digitVal a * 1000 + digitVal b * 100 + digitVal c * 10 + digitVal d, rest)
    else Option.none
  | _ => Option.none

/-- A literal character of the format. -/
def expectChar (ch : Char) (cs : List Char) : Option (List Char) :=
  match cs with
  | c :: rest => if c = ch then some rest else Option.none
  | [] => Option.none

/-- Gregorian leap year. -/
def isLeapYear (y : ℕ) : Bool := (y % 4 = 0 ∧ y % 100 ≠ 0) ∨ y % 400 = 0

/-- Days in a month. -/
def daysInMonth (y m : ℕ) : ℕ :=
  if m = 2 then (if isLeapYear y then 29 else 28)
  else if m = 4 ∨ m = 6 ∨ m = 9 ∨ m = 11 then 30
  else 31

/-- A `datetime` value as built by `strptime` for these formats (naive;
`%Z` contributes no offset). -/
structure DateTime where
  year : ℕ
  month : ℕ
  day : ℕ
  hour : ℕ
  minute : ℕ
  second : ℕ
deriving DecidableEq, Repr

/-- The `datetime(...)` constructor's validation (`MINYEAR = 1`,
`MAXYEAR = 9999`). -/
def dtMake (y mo d h mi s : ℕ) : Option DateTime :=
  if 1 ≤ y ∧ y ≤ 9999 ∧ 1 ≤ mo ∧ mo ≤ 12 ∧ 1 ≤ d ∧ d ≤ daysInMonth y mo ∧
     h ≤ 23 ∧ mi ≤ 59 ∧ s ≤ 59
  then some ⟨y, mo, d, h, mi, s⟩ else Option.none

/-- `strptime(s, '%a %b %d %H:%M:%S %Z %Y')` (full-string match). -/
def matchFormat1 (cs : List Char) : Option DateTime :=
  (matchNames dayAbbrevs cs).bind fun r1 =>
  (ws1 r1).bind fun r2 =>
  (matchMonthName r2).bind fun mr =>
  (ws1 mr.2).bind fun r4 =>
  (dayAlts r4).findSome? fun dp =>
  (ws1 dp.2).bind fun r6 =>
  (hourAlts r6).findSome? fun hp =>
  (expectChar ':' hp.2).bind fun r8 =>
  (minuteAlts r8).findSome? fun mp =>
  (expectChar ':' mp.2).bind fun r10 =>
  (secondAlts r10).findSome? fun sp =>
  (ws1 sp.2).bind fun r12 =>
  (matchNames tzAbbrevs r12).bind fun r13 =>
  (ws1 r13).bind fun r14 =>
  (year4 r14).bind fun yp =>
  if yp.2.isEmpty then dtMake yp.1 mr.1 dp.1 hp.1 mp.1 sp.1 else Option.none

/-- `strptime(s, '%d/%m/%Y %H:%M')` (full-string match; missing fields
default: second = 0). -/
def matchFormat3 (cs : List Char) : Option DateTime :=
  (dayAlts cs).findSome? fun dp =>
  (expectChar '/' dp.2).bind fun r2 =>
  (monthAlts r2).findSome? fun mp =>
  (expectChar '/' mp.2).bind fun r4 =>
  (year4 r4).bind fun yp =>
  (ws1 yp.2).bind fun r6 =>
  (hourAlts r6).findSome? fun hp =>
  (expectChar ':' hp.2).bind fun r8 =>
  (minuteAlts r8).findSome? fun minp =>
  if minp.2.isEmpty then dtMake yp.1 mp.1 dp.1 hp.1 minp.1 0 else Option.none

/-- `strptime(s, '%d/%m/%Y')` (full-string match; hour/minute/second
default to 0). -/
def matchFormat4 (cs : List Char) : Option DateTime :=
  (dayAlts cs).findSome? fun dp =>
  (expectChar '/' dp.2).bind fun r2 =>
  (monthAlts r2).findSome? fun mp =>
  (expectChar '/' mp.2).bind fun r4 =>
  (year4 r4).bind fun yp =>
  if yp.2.isEmpty then dtMake yp.1 mp.1 dp.1 0 0 0 else Option.none

/-- The `formats` list of `parse_date`, first match wins (the first entry is
duplicated in the source). -/
def tryFormatsChars (cs : List Char) : Option DateTime :=
  [matchFormat1, matchFormat1, matchFormat3, matchFormat4].findSome? (fun f => f cs)

/-- Decimal digit character of `m % 10`. -/
def digitOf (m : ℕ) : Char :=
  match m % 10 with
  | 0 => '0' | 1 => '1' | 2 => '2' | 3 => '3' | 4 => '4'
  | 5 => '5' | 6 => '6' | 7 => '7' | 8 => '8' | _ => '9'

/-- `%02d` for values ≤ 99 (all fields printed by `isoformat` are). -/
def pad2Chars (n : ℕ) : List Char := [digitOf (n / 10), digitOf n]

/-- `%04d` for values ≤ 9999 (`strptime`'s `%Y` guarantees this). -/
def pad4Chars (n : ℕ) : List Char :=
  [digitOf (n / 1000), digitOf (n / 100), digitOf (n / 10), digitOf n]

/-- `datetime.isoformat()` for the naive, microsecond-free values produced
here: `YYYY-MM-DDTHH:MM:SS`. -/
def isoChars (dt : DateTime) : List Char :=
  pad4Chars dt.year ++ '-' :: pad2Chars dt.month ++ '-' :: pad2Chars dt.day ++
  'T' :: pad2Chars dt.hour ++ ':' :: pad2Chars dt.minute ++ ':' :: pad2Chars dt.second

/-- `datetime.isoformat()`. -/
def isoformat (dt : DateTime) : String := String.mk (isoChars dt)

/-- `parse_date` (`type_coercer.py`): empty input gives `''`; otherwise the
stripped string is tried against the format list and the first success is
returned in ISO form; if none matches, the original string is returned. -/
def parse_date (dateStr : String) : String :=
  if dateStr = "" then ""
  else
    match tryFormatsChars (stripChars dateStr.data) with
    | some dt => isoformat dt
    | Option.none => dateStr

/-- `parse_date` as applied to a record value by `coerce_types`: falsy values
short-circuit to `''`; for non-string truthy values `.strip()` raises
`AttributeError`, which the function's catch-all turns into returning the
argument unchanged. -/
def parseDateVal (v : PyVal) : PyVal :=
  if pyTruthy v then
    match v with
    | .str s => .str (parse_date s)
    | _ => v
  else .str ""

/-! ### `coerce_types` (`type_coercer.py`) -/

/-- Python exceptions that can escape the modelled functions. -/
inductive PyErr where
  | attributeError
  | typeError
deriving DecidableEq, Repr

/-- `v.lower()`: defined for strings, `AttributeError` otherwise. -/
def pyLowerVal : PyVal → Except PyErr String
  | .str s => .ok (String.mk (s.data.map toLowerChar))
  | _ => .error .attributeError

/-- The `resource_id` block of `coerce_types`: a truthy identifier is
replaced by its integer coercion, or by `None` on `ValueError`/`TypeError`;
a falsy or missing identifier is left untouched. -/
def coerceResId (c0 : List (String × PyVal)) : List (String × PyVal) :=
  if pyTruthy (dgetD c0 "resource_id" .none) then
    match pyIntOfVal (dgetD c0 "resource_id" .none) with
    | some n => dset c0 "resource_id" (.int n)
    | Option.none => dset c0 "resource_id" .none
  else c0

/-- The three date-parsing lines of `coerce_types`. -/
def coerceDates (c1 : List (String × PyVal)) : List (String × PyVal) :=
  let c2 := dset c1 "date_published_parsed" (parseDateVal (dgetD c1 "date_published" (.str "")))
  let c3 := dset c2 "submission_deadline_parsed" (parseDateVal (dgetD c2 "submission_deadline" (.str "")))
  dset c3 "award_date_parsed" (parseDateVal (dgetD c3 "award_date" (.str "")))

/-- The value the `estimated_value` block computes. -/
def estNumOf (c4 : List (String × PyVal)) : PyVal :=
  let valueStr := dgetD c4 "estimated_value" (.str "")
  if pyTruthy valueStr then
    match pyFloatOfString (removeCommaWS (pyStrOfVal valueStr)) with
    | some f => .float f
    | Option.none => .none
  else .none

/-- The `estimated_value` block of `coerce_types`. -/
def coerceValue (c4 : List (String × PyVal)) : List (String × PyVal) :=
  dset c4 "estimated_value_numeric" (estNumOf c4)

/-- The value the `cycle` block computes. -/
def cycleNumOf (c5 : List (String × PyVal)) : PyVal :=
  if pyTruthy (dgetD c5 "cycle" .none) then
    match pyIntOfVal (dgetD c5 "cycle" .none) with
    | some n => .int n
    | Option.none => .none
  else .none

/-- The `cycle` block of `coerce_types`. -/
def coerceCycle (c5 : List (String × PyVal)) : List (String × PyVal) :=
  dset c5 "cycle_numeric" (cycleNumOf c5)

/-- The `has_pdf_url` / `has_estimated_value` flag lines of `coerce_types`. -/
def coerceFlags (c6 : List (String × PyVal)) : List (String × PyVal) :=
  let c7 := dset c6 "has_pdf_url" (.bool (pyTruthy (dgetD c6 "notice_pdf_url" .none)))
  dset c7 "has_estimated_value" (.bool (!pyIsNone (dgetD c7 "estimated_value_numeric" .none)))

/-- The part of `coerce_types` before the `is_open` line, in source order
(all of it is exception-free: every `int`/`float` call there sits inside a
`try/except (ValueError, TypeError)`). -/
def coercePure (record : List (String × PyVal)) : List (String × PyVal) :=
  coerceFlags (coerceCycle (coerceValue (coerceDates (coerceResId record))))

/-- `coerce_types` (`type_coercer.py`).  The only uncaught exception in the
source is the `AttributeError` from `coerced.get('status', '').lower()` when a
record carries a non-string `status`. -/
def coerce_types (record : List (String × PyVal)) : Except PyErr (List (String × PyVal)) :=
  let coerced := coercePure record
  match pyLowerVal (dgetD coerced "status" (.str "")) with
  | .ok statusLower => .ok (dset coerced "is_open" (.bool (statusLower == "open")))
  | .error e => .error e

/-! ### `extract_cpv_codes` / `check_cpv_codes` (`cpv_list_checker.py`)

The module-level `CPV_CODES` dictionary (loaded from `cpv_list.json`, a data
file) is a parameter `lookup : String → Option String` of the embedded
functions. -/

/-- A CPV match as appended to `found_cpvs`. -/
structure CpvMatch where
  code : String
  description : String
  source : String
  validated : Bool
deriving DecidableEq, Repr

/-- Word characters of `re`'s `\w` (ASCII core). -/
def isWordChar (c : Char) : Bool := c.isAlphanum || c == uscoreChar

/-- Maximal word-character runs of a character list (accumulator reversed). -/
def wordTokensAux : List Char → List Char → List (List Char)
  | [], cur => if cur.isEmpty then [] else [cur.reverse]
  | c :: rest, cur =>
    if isWordChar c then wordTokensAux rest (c :: cur)
    else if cur.isEmpty then wordTokensAux rest []
    else cur.reverse :: wordTokensAux rest []

/-- `re.findall(r'\b(\d{8})\b', s)`: a match is a maximal word-character run
consisting of exactly eight digits. -/
def findall8 (s : String) : List String :=
  (wordTokensAux s.data []).filterMap
    (fun t => if t.length = 8 ∧ t.all Char.isDigit then some (String.mk t) else Option.none)

/-- The `main_classification` loop: every code is kept (regardless of
dictionary membership), the description is the whole classification string,
and the validity flag records dictionary membership; duplicates are skipped. -/
def mainClassFold (lookup : String → Option String) (desc : String)
    (found : List CpvMatch) (codes : List String) : List CpvMatch :=
  codes.foldl (fun acc code =>
    if acc.any (fun cpv => cpv.code == code) then acc
    else acc ++ [⟨code, desc, "pdf_main_classification", (lookup code).isSome⟩]) found

/-- The dictionary-guarded loops (`pdf_content` sections, full text, free
text): a code is kept only if it is in the dictionary, with `validated = true`
and the dictionary description; duplicates are skipped. -/
def validatedFold (lookup : String → Option String) (src : String)
    (found : List CpvMatch) (codes : List String) : List CpvMatch :=
  codes.foldl (fun acc code =>
    match lookup code with
    | some desc =>
      if acc.any (fun cpv => cpv.code == code) then acc
      else acc ++ [⟨code, desc, src, true⟩]
    | Option.none => acc) found

/-- The `pdf_content` section loop (sections whose text is not a string are
skipped by the `isinstance` guard). -/
def sectionsFold (lookup : String → Option String)
    (found : List CpvMatch) (sections : List (String × PyVal)) : List CpvMatch :=
  sections.foldl (fun acc sec =>
    match sec.2 with
    | .str text => validatedFold lookup ("pdf_content_" ++ sec.1) acc (findall8 text)
    | _ => acc) found

/-- `main_classification` phase; `re.findall` on a truthy non-string raises
`TypeError`. -/
def cpvPhase1 (lookup : String → Option String)
    (es : List (String × PyVal)) : Except PyErr (List CpvMatch) :=
  let mc := dgetD es "main_classification" (.str "")
  if pyTruthy mc then
    match mc with
    | .str s => .ok (mainClassFold lookup s [] (findall8 s))
    | _ => .error .typeError
  else .ok []

/-- `pdf_content` phase (skipped unless the value is a dict). -/
def cpvPhase2 (lookup : String → Option String)
    (es : List (String × PyVal)) (found : List CpvMatch) : List CpvMatch :=
  match dgetD es "pdf_content" (.dict []) with
  | .dict sections => sectionsFold lookup found sections
  | _ => found

/-- `pdf_content_full_text` phase; `re.findall` on a truthy non-string raises
`TypeError`. -/
def cpvPhase3 (lookup : String → Option String)
    (es : List (String × PyVal)) (found : List CpvMatch) : Except PyErr (List CpvMatch) :=
  let ft := dgetD es "pdf_content_full_text" (.str "")
  if pyTruthy ft then
    match ft with
    | .str s => .ok (validatedFold lookup "pdf_full_text" found (findall8 s))
    | _ => .error .typeError
  else .ok found

/-- The `pdf_data` block of `extract_cpv_codes` (entered only when `pdf_data`
is a truthy dict). -/
def cpvPdfPhase (lookup : String → Option String)
    (record : List (String × PyVal)) : Except PyErr (List CpvMatch) :=
  match dgetD record "pdf_data" .none with
  | .dict es =>
    if es.isEmpty then .ok []
    else
      match cpvPhase1 lookup es with
      | .error e => .error e
      | .ok f1 => cpvPhase3 lookup es (cpvPhase2 lookup es f1)
  | _ => .ok []

/-- `' '.join([str(title), str(info), str(contracting_authority)])`. -/
def searchableOf (record : List (String × PyVal)) : String :=
  pyStrOfVal (dgetD record "title" (.str "")) ++ " " ++
  pyStrOfVal (dgetD record "info" (.str "")) ++ " " ++
  pyStrOfVal (dgetD record "contracting_authority" (.str ""))

/-- `extract_cpv_codes` (`cpv_list_checker.py`). -/
def extract_cpv_codes (lookup : String → Option String)
    (record : List (String × PyVal)) : Except PyErr (List CpvMatch) :=
  match cpvPdfPhase lookup record with
  | .error e => .error e
  | .ok found => .ok (validatedFold lookup "text_search" found (findall8 (searchableOf record)))

/-- A `CpvMatch` as the dict appended to `found_cpvs` in the source. -/
def cpvToVal (m : CpvMatch) : PyVal :=
  .dict [("code", .str m.code), ("description", .str m.description),
         ("source", .str m.source), ("validated", .bool m.validated)]

/-- `check_cpv_codes` (`cpv_list_checker.py`). -/
def check_cpv_codes (lookup : String → Option String)
    (record : List (String × PyVal)) : Except PyErr (List (String × PyVal)) :=
  match extract_cpv_codes lookup record with
  | .error e => .error e
  | .ok cpvCodes =>
    let e1 := dset record "cpv_codes" (.list (cpvCodes.map cpvToVal))
    let e2 := dset e1 "cpv_count" (.int cpvCodes.length)
    let e3 := dset e2 "has_validated_cpv" (.bool (cpvCodes.any (fun m => m.validated)))
    .ok (dset e3 "cpv_code_list" (.list (cpvCodes.map (fun m => .str m.code))))

/-! ### `parse_pdf_with_ollama` / `enrich_record_with_pdf` (`pdf_parser.py`)

`json.loads` is a parameter `jsonLoads : String → Except String PyVal` (the
error value is `str(je)`); the HTTP call's outcome is a parameter. -/

/-- Outcome of the `requests.post` call to Ollama: connection refused
(`requests.exceptions.ConnectionError`), any other error (timeout, HTTP
error status, non-JSON body — all caught by the broad handler), or a
response text. -/
inductive OllamaOutcome where
  | connError
  | otherError
  | response (text : String)

/-- `text_content[:15000]` (a Python slice counts code points). -/
def strTake (s : String) (n : ℕ) : String := String.mk (s.data.take n)

/-- Newline and backtick characters. -/
def nlChar : Char := Char.ofNat 10

/-- Backtick character. -/
def btChar : Char := Char.ofNat 96

/-- Left/right brace and quote characters. -/
def lbraceChar : Char := Char.ofNat 123

/-- Right brace. -/
def rbraceChar : Char := Char.ofNat 125

/-- Single-quote character. -/
def squoteChar : Char := Char.ofNat 39

/-- Double-quote character. -/
def dquoteChar : Char := Char.ofNat 34

/-- `re.sub(r'^<tag>\s*\n', '', cs)` (anchored, so at most one occurrence):
if the text starts with `tag` followed by whitespace containing a newline,
drop through the last newline of that whitespace run. -/
def dropFencePre (tag : List Char) (cs : List Char) : List Char :=
  if cs.take tag.length = tag then
    let rest := cs.drop tag.length
    let wsrun := rest.takeWhile isAsciiWS
    match wsrun.reverse.findIdx? (fun c => c == nlChar) with
    | some k => rest.drop (wsrun.length - k)
    | Option.none => cs
  else cs

/-- Does `cs` start with a newline, three backticks, and then only
whitespace? (`\n```\s*$`.) -/
def fenceSufAt (cs : List Char) : Bool :=
  decide (cs.take 4 = [nlChar, btChar, btChar, btChar]) && (cs.drop 4).all isAsciiWS

/-- Leftmost occurrence of the trailing-fence pattern: the kept prefix. -/
def dropFenceSufAux : List Char → Option (List Char)
  | [] => Option.none
  | c :: rest =>
    if fenceSufAt (c :: rest) then some []
    else (dropFenceSufAux rest).map (fun kept => c :: kept)

/-- `re.sub(r'\n```\s*$', '', cs)`. -/
def dropFenceSuf (cs : List Char) : List Char := (dropFenceSufAux cs).getD cs

/-- The fence-stripping and `.strip()` applied to the Ollama response text. -/
def stripFences (s : String) : String :=
  let cs1 := dropFencePre ("```json").data s.data
  let cs2 := dropFenceSuf cs1
  let cs3 := dropFencePre ("```").data cs2
  pyStrip (String.mk cs3)

/-- `json_text.replace("'", '"')`. -/
def quoteFix (s : String) : String :=
  String.mk (s.data.map (fun c => if c = squoteChar then dquoteChar else c))

/-- `re.search(r'\{.*\}', s, re.DOTALL)`: the span from the first left brace
to the last right brace, when the latter comes after the former. -/
def braceSpan (s : String) : Option String :=
  let cs := s.data
  match cs.findIdx? (fun c => c == lbraceChar) with
  | some i =>
    match cs.reverse.findIdx? (fun c => c == rbraceChar) with
    | some jr =>
      let j := cs.length - 1 - jr
      if i < j then some (String.mk ((cs.drop i).take (j - i + 1))) else Option.none
    | Option.none => Option.none
  | Option.none => Option.none

/-- The raw-text fallback (no `parse_error` field), returned when the broad
exception handler fires. -/
def rawTextFallback (textContent : String) : PyVal :=
  .dict [("pdf_content", .dict [("full_text", .str (strTake textContent 15000))])]

/-- The parse-error fallback: raw truncated text under the single fallback
heading plus the `json.JSONDecodeError` message. -/
def parseErrorFallback (textContent err : String) : PyVal :=
  .dict [("pdf_content", .dict [("full_text", .str (strTake textContent 15000)),
                                ("parse_error", .str err)])]

/-- The flattening step: `result_data = parsed.get('metadata', {})`;
`result_data['pdf_content'] = parsed.get('pdf_content', {})`; synthesize
`pdf_content` from the raw text when falsy.  `.get` on a non-dict raises
`AttributeError`; item assignment into a non-dict metadata raises
`TypeError`; both are caught by the broad handler in the caller. -/
def flattenParsed (parsed : PyVal) (textContent : String) : Except PyErr PyVal :=
  match parsed with
  | .dict es =>
    match dgetD es "metadata" (.dict []) with
    | .dict mes =>
      let r1 := dset mes "pdf_content" (dgetD es "pdf_content" (.dict []))
      let r2 :=
        if pyTruthy (dgetD r1 "pdf_content" .none) then r1
        else dset r1 "pdf_content" (.dict [("full_text", .str (strTake textContent 15000))])
      .ok (.dict r2)
    | _ => .error .typeError
  | _ => .error .attributeError

/-- `parse_pdf_with_ollama` (`pdf_parser.py`), from the point where the HTTP
outcome is known: fence-strip, parse, on failure quote-fix + brace-extract and
retry, on final failure return the parse-error fallback; a flattening
exception is caught by the broad handler and yields the raw-text fallback. -/
def parse_pdf_with_ollama (jsonLoads : String → Except String PyVal)
    (outcome : OllamaOutcome) (textContent : String) : PyVal :=
  match outcome with
  | .connError => .dict []
  | .otherError => rawTextFallback textContent
  | .response responseText =>
    let jsonText := stripFences responseText
    match jsonLoads jsonText with
    | .ok parsed =>
      match flattenParsed parsed textContent with
      | .ok v => v
      | .error _ => rawTextFallback textContent
    | .error je =>
      match braceSpan (quoteFix jsonText) with
      | some span =>
        match jsonLoads span with
        | .ok parsed =>
          match flattenParsed parsed textContent with
          | .ok v => v
          | .error _ => rawTextFallback textContent
        | .error _ => parseErrorFallback textContent je
      | Option.none => parseErrorFallback textContent je

/-- `enrich_record_with_pdf` (`pdf_parser.py`): `fetchedText` stands for the
result of `extract_pdf_text` (which returns `''` on any download/extraction
failure). -/
def enrich_record_with_pdf (jsonLoads : String → Except String PyVal)
    (fetchedText : String) (outcome : OllamaOutcome)
    (record : List (String × PyVal)) : List (String × PyVal) :=
  if !pyTruthy (dgetD record "notice_pdf_url" (.str "")) then
    dset (dset record "pdf_data" .none) "pdf_parsed" (.bool false)
  else if fetchedText = "" then
    dset (dset record "pdf_data" .none) "pdf_parsed" (.bool false)
  else
    let parsedData := parse_pdf_with_ollama jsonLoads outcome fetchedText
    if pyTruthy parsedData then
      dset (dset record "pdf_data" parsedData) "pdf_parsed" (.bool true)
    else
      dset (dset record "pdf_data" .none) "pdf_parsed" (.bool false)

/-! ### `process_record` (`main.py`) -/

/-- The `enriched` variable of `process_record`: the enrichment output when
the PDF branch is taken, the tender record otherwise. -/
def enrichedOf (jsonLoads : String → Except String PyVal) (fetchedText : String)
    (outcome : OllamaOutcome) (tender : List (String × PyVal))
    (processPdfs : Bool) : List (String × PyVal) :=
  if processPdfs && pyTruthy (dgetD tender "has_pdf_url" .none) then
    enrich_record_with_pdf jsonLoads fetchedText outcome tender
  else tender

/-- The `pdf_record` of `process_record`: built (by dict-literal plus `**`
unpacking of `pdf_data`) only when the PDF branch was taken and enrichment
succeeded; `**` of a non-dict raises `TypeError`. -/
def pdfRecordOf (tender enriched : List (String × PyVal)) (branchTaken : Bool) :
    Except PyErr (Option (List (String × PyVal))) :=
  if branchTaken && pyTruthy (dgetD enriched "pdf_parsed" .none) &&
     pyTruthy (dgetD enriched "pdf_data" .none) then
    match dgetD enriched "pdf_data" .none with
    | .dict es =>
      .ok (some (es.foldl (fun acc kv => dset acc kv.1 kv.2)
        [("resource_id", dgetD tender "resource_id" .none),
         ("pdf_url", dgetD tender "notice_pdf_url" .none),
         ("pdf_parsed", .bool true)]))
    | _ => .error .typeError
  else .ok Option.none

/-- The `cpv_record` of `process_record` (built only when code checking is
enabled and at least one code was found). -/
def cpvRecordOf (lookup : String → Option String) (enriched : List (String × PyVal))
    (resourceId : PyVal) (checkCpvs : Bool) :
    Except PyErr (Option (List (String × PyVal))) :=
  if checkCpvs then
    match check_cpv_codes lookup enriched with
    | .error e => .error e
    | .ok enrichedCpv =>
      let cpvCount := dgetD enrichedCpv "cpv_count" (.int 0)
      let n : Int := match cpvCount with | .int n => n | _ => 0
      if 0 < n then
        .ok (some [("resource_id", resourceId),
                   ("cpv_count", cpvCount),
                   ("cpv_codes", dgetD enrichedCpv "cpv_code_list" (.list [])),
                   ("cpv_details", dgetD enrichedCpv "cpv_codes" (.list [])),
                   ("has_validated_cpv", dgetD enrichedCpv "has_validated_cpv" (.bool false))])
      else .ok Option.none
  else .ok Option.none

/-- `process_record` (`main.py`): coercion, optional PDF enrichment, optional
CPV checking; returns the three records.  Exceptions escaping any stage
propagate (they are caught per record in `run_pipeline`, which then writes
nothing for the record). -/
def process_record (lookup : String → Option String)
    (jsonLoads : String → Except String PyVal) (fetchedText : String)
    (outcome : OllamaOutcome) (record : List (String × PyVal))
    (processPdfs checkCpvs : Bool) :
    Except PyErr
      ((List (String × PyVal)) × Option (List (String × PyVal)) × Option (List (String × PyVal))) :=
  match coerce_types record with
  | .error e => .error e
  | .ok tender =>
    let branch := processPdfs && pyTruthy (dgetD tender "has_pdf_url" .none)
    let enriched := enrichedOf jsonLoads fetchedText outcome tender processPdfs
    match pdfRecordOf tender enriched branch with
    | .error e => .error e
    | .ok pdfRecord =>
      match cpvRecordOf lookup enriched (dgetD tender "resource_id" .none) checkCpvs with
      | .error e => .error e
      | .ok cpvRecord => .ok (tender, pdfRecord, cpvRecord)

/-! ### `PostgresOutput` (`postgres_output.py`)

The database server is modelled as the state of the `etenders_core` table
plus the open transaction: `cursor.execute` of the upsert appends the row's
effect to the open transaction (or raises — whether a given record's
statement raises is a parameter `execOk`), `conn.commit()` applies and clears
the open transaction, `conn.rollback()` discards it. -/

/-- A row of `etenders_core`, keyed by `resource_id`. -/
structure TRow where
  resourceId : Int
  payload : String
deriving DecidableEq, Repr

/-- `INSERT ... ON CONFLICT (resource_id) DO UPDATE` applied to the table. -/
def upsertRow (table : List TRow) (r : TRow) : List TRow :=
  if table.any (fun x => x.resourceId == r.resourceId)
  then table.map (fun x => if x.resourceId == r.resourceId then r else x)
  else table ++ [r]

/-- Connection state: committed table, open transaction, commit counter. -/
structure PgState where
  committed : List TRow
  pending : List TRow
  commitCount : ℕ
deriving DecidableEq, Repr

/-- A fresh connection. -/
def pgInit : PgState := ⟨[], [], 0⟩

/-- `write_tender` (`postgres_output.py`): execute the upsert and commit;
on an exception, roll back and return `False`. -/
def write_tender (execOk : TRow → Bool) (st : PgState) (r : TRow) : Bool × PgState :=
  if execOk r then
    (true, ⟨(st.pending ++ [r]).foldl upsertRow st.committed, [], st.commitCount + 1⟩)
  else
    (false, ⟨st.committed, [], st.commitCount⟩)

/-- One iteration of the tender-record loop of `write_records`: write the
record, count it if successful, carry the connection state. -/
def wrStep (execOk : TRow → Bool) (acc : ℕ × PgState) (r : TRow) : ℕ × PgState :=
  let res := write_tender execOk acc.2 r
  (if res.1 then acc.1 + 1 else acc.1, res.2)

/-- The tender-record loop of `write_records` (`postgres_output.py`):
write each record, counting successes, continuing after failures. -/
def write_records_tenders (execOk : TRow → Bool) (st : PgState)
    (rs : List TRow) : ℕ × PgState :=
  rs.foldl (wrStep execOk) (0, st)

/-- One-based indices of the records during whose `write_tender` call the
commit counter advanced. -/
def commitTraceAux (execOk : TRow → Bool) (st : PgState) (idx : ℕ) :
    List TRow → List ℕ
  | [] => []
  | r :: rest =>
    let res := write_tender execOk st r
    (if st.commitCount < res.2.commitCount then [idx] else []) ++
    commitTraceAux execOk res.2 (idx + 1) rest

/-- Commit positions over a whole batch, starting from record 1. -/
def commitTrace (execOk : TRow → Bool) (st : PgState) (rs : List TRow) : List ℕ :=
  commitTraceAux execOk st 1 rs

/-- One-based positions of the records a batched writer with batch size `b`
would commit after: multiples of `b`, plus the final flush. -/
def batchPositions (b n : ℕ) : List ℕ :=
  (List.range' 1 n).filter (fun k => k % b == 0 || k == n)

/-- One-based positions of the successful records (used to characterize the
per-record commit pattern). -/
def successPositionsAux (execOk : TRow → Bool) (idx : ℕ) : List TRow → List ℕ
  | [] => []
  | r :: rest =>
    (if execOk r then [idx] else []) ++ successPositionsAux execOk (idx + 1) rest

/-! ### Dictionary lemmas -/

/-- The `estimated_value_numeric` field produced by `coerce_types` on a record
whose `estimated_value` is the given string. -/
def c1est (v : String) : Except PyErr PyVal :=
  (coerce_types [("estimated_value", PyVal.str v)]).map
    (fun out => dgetD out "estimated_value_numeric" PyVal.none)

/-- The invariant of claim C9: every emitted match either comes from the
document classification field (with its validity flag recording dictionary
membership), or is validated and dictionary-backed. -/
def CpvInv (lookup : String → Option String) (m : CpvMatch) : Prop :=
  (m.source = "pdf_main_classification" ∧ m.validated = (lookup m.code).isSome) ∨
  (m.validated = true ∧ (lookup m.code).isSome = true)

/-- The classification string of the C4 scenario. -/
def c4mc : String := "72212731 File security software development services"

/-- The C4 scenario record: the classification field contains `72212731`, the
free text contains `72212731` and `99999999`. -/
def c4rec : List (String × PyVal) :=
  [("pdf_data", PyVal.dict [("main_classification", PyVal.str c4mc)]),
   ("title", PyVal.str "Contract 72212731 and 99999999")]

/-- The single match the extractor produces on `c4rec`. -/
def c4entry (lookup : String → Option String) : CpvMatch :=
  ⟨"72212731", c4mc, "pdf_main_classification", (lookup "72212731").isSome⟩

/-- A concrete reference dictionary containing `72212731` but not
`99999999`. -/
def c4lk : String → Option String :=
  fun c => if c = "72212731" then some "File security software development services"
           else Option.none

/-- A `json.loads` stand-in that always fails. -/
def c3jp : String → Except String PyVal := fun _ => .error "Expecting value"

/-- The concrete record of the C3 witness scenario. -/
def c3rec : List (String × PyVal) := [("notice_pdf_url", PyVal.str "http://x")]

/-- The keys `coerce_types` writes in addition to `resource_id`. -/
def c10derivedKeys : List String :=
  ["date_published_parsed", "submission_deadline_parsed", "award_date_parsed",
   "estimated_value_numeric", "cycle_numeric", "has_pdf_url",
   "has_estimated_value", "is_open"]

/-- The concrete output of `coerce_types` on `[("is_open", "x")]`. -/
def c10out : List (String × PyVal) :=
  [("is_open", PyVal.bool false),
   ("date_published_parsed", PyVal.str ""),
   ("submission_deadline_parsed", PyVal.str ""),
   ("award_date_parsed", PyVal.str ""),
   ("estimated_value_numeric", PyVal.none),
   ("cycle_numeric", PyVal.none),
   ("has_pdf_url", PyVal.bool false),
   ("has_estimated_value", PyVal.bool false)]

/-- The C10 witness record and the corresponding `coerce_types` output. -/
def c10wrec : List (String × PyVal) :=
  [("title", PyVal.str "T"), ("status", PyVal.str "Open")]

/-- Output of `coerce_types` on the C10 witness record. -/
def c10wout : List (String × PyVal) :=
  [("title", PyVal.str "T"), ("status", PyVal.str "Open"),
   ("date_published_parsed", PyVal.str ""),
   ("submission_deadline_parsed", PyVal.str ""),
   ("award_date_parsed", PyVal.str ""),
   ("estimated_value_numeric", PyVal.none),
   ("cycle_numeric", PyVal.none),
   ("has_pdf_url", PyVal.bool false),
   ("has_estimated_value", PyVal.bool false),
   ("is_open", PyVal.bool true)]

/-- Value is a string. -/
def isStrVal : PyVal → Bool
  | .str _ => true
  | _ => false

/-- Value is an integer or the absent marker. -/
def isIntOrNone : PyVal → Bool
  | .int _ => true
  | .none => true
  | _ => false

/-- Value is a float or the absent marker. -/
def isFloatOrNone : PyVal → Bool
  | .float _ => true
  | .none => true
  | _ => false

/-- Value is a boolean. -/
def isBoolVal : PyVal → Bool
  | .bool _ => true
  | _ => false

/-- A raw scraped record: a flat mapping whose values are all strings. -/
def StringRecord (r : List (String × PyVal)) : Prop :=
  ∀ kv ∈ r, ∃ s, kv.2 = PyVal.str s

/-- The `json.loads` outcome of the C5 counterexample: the LLM returned valid
JSON whose `main_classification` is a number. -/
def c5jp : String → Except String PyVal := fun _ =>
  .ok (.dict [("metadata", .dict [("main_classification", .int 5)]),
              ("pdf_content", .dict [("s", .str "t")])])

/-- The C5 counterexample record (has a document URL, open status). -/
def c5cexrec : List (String × PyVal) :=
  [("notice_pdf_url", PyVal.str "u"), ("status", PyVal.str "Open")]

/-- The C5 witness record. -/
def c5wrec : List (String × PyVal) := [("status", PyVal.str "x")]

/-- `coerce_types` output on the C5 witness record. -/
def c5wout : List (String × PyVal) :=
  [("status", PyVal.str "x"),
   ("date_published_parsed", PyVal.str ""),
   ("submission_deadline_parsed", PyVal.str ""),
   ("award_date_parsed", PyVal.str ""),
   ("estimated_value_numeric", PyVal.none),
   ("cycle_numeric", PyVal.none),
   ("has_pdf_url", PyVal.bool false),
   ("has_estimated_value", PyVal.bool false),
   ("is_open", PyVal.bool false)]

theorem dget_dset_self (d : List (String × PyVal)) (k : String) (v : PyVal) :
    dget (dset d k v) k = some v := by
  induction d with
  | nil => simp [dset, dget]
  | cons kv rest ih =>
    by_cases h : kv.1 = k
    · simp [dset, dget, h]
    · simp [dset, dget, h, ih]

theorem dget_dset_ne (d : List (String × PyVal)) (k k2 : String) (v : PyVal)
    (h : k ≠ k2) : dget (dset d k v) k2 = dget d k2 := by
  induction d with
  | nil => simp [dset, dget, h]
  | cons kv rest ih =>
    by_cases h2 : kv.1 = k
    · simp [dset, dget, h2, h]
    · simp only [dset, dget, if_neg h2]
      by_cases h3 : kv.1 = k2 <;> simp [h3, ih]

theorem dget_of_mem_nodup (d : List (String × PyVal)) (k : String) (v : PyVal)
    (hnd : (d.map Prod.fst).Nodup) (hmem : (k, v) ∈ d) : dget d k = some v := by
  induction d with
  | nil => cases hmem
  | cons kv rest ih =>
    rcases List.mem_cons.mp hmem with h | h
    · simp [dget, ← h]
    · have hk : kv.1 ≠ k := by
        intro he
        exact (List.nodup_cons.mp hnd).1 (he ▸ List.mem_map_of_mem Prod.fst h)
      simp [dget, hk, ih (List.nodup_cons.mp hnd).2 h]

/-! ### Claim C1: currency normalization -/

/-- Claim C1 (counterexample): `coerce_types` does NOT strip currency symbols
— `re.sub(r'[,\s]', '', ...)` removes only commas and whitespace — so
`estimated_value = "€50,000"` yields the absent marker `None`, not `50000.0`
as the claim states. -/
theorem c1_counterexample :
    c1est "€50,000" = .ok PyVal.none ∧
    c1est "€50,000" ≠ .ok (PyVal.float (.finite 50000)) := by
  refine ⟨rfl, ?_⟩
  intro h
  rw [show c1est "€50,000" = .ok PyVal.none from rfl] at h
  exact PyVal.noConfusion (Except.ok.inj h)

/-- Claim C1 (amended): the normalizer strips thousands separators (commas)
and whitespace but not currency symbols; a value with a currency symbol parses
to the absent marker, a plain separated decimal parses to its exact value, and
empty or non-numeric input is absent. -/
theorem c1_theorem :
    c1est "€50,000" = .ok PyVal.none ∧
    c1est "€1,234,567.89" = .ok PyVal.none ∧
    c1est "" = .ok PyVal.none ∧
    c1est "N/A" = .ok PyVal.none ∧
    c1est "50,000" = .ok (PyVal.float (.finite 50000)) ∧
    c1est "1,234,567.89" = .ok (PyVal.float (.finite (123456789 / 100))) := by
  refine ⟨rfl, rfl, rfl, rfl, rfl, ?_⟩
  have h : c1est "1,234,567.89" = .ok (PyVal.float (.finite (mkRat 123456789 100))) := rfl
  rw [h, Rat.mkRat_eq_div]
  norm_num

/-! ### Claims C2 and C6: relational-store writer -/

theorem write_records_tenders_aux (execOk : TRow → Bool) :
    ∀ (rs : List TRow) (n : ℕ) (st : PgState), st.pending = [] →
    rs.foldl (wrStep execOk) (n, st)
    = (n + (rs.filter execOk).length,
       ⟨(rs.filter execOk).foldl upsertRow st.committed, [],
        st.commitCount + (rs.filter execOk).length⟩) := by
  intro rs
  induction rs with
  | nil =>
    intro n st hp
    cases st
    simp_all
  | cons r rest ih =>
    intro n st hp
    rw [List.foldl_cons]
    by_cases h : execOk r = true
    · have happ : wrStep execOk (n, st) r
          = (n + 1, ⟨upsertRow st.committed r, [], st.commitCount + 1⟩) := by
        simp [wrStep, write_tender, h, hp]
      rw [happ, ih (n + 1) ⟨upsertRow st.committed r, [], st.commitCount + 1⟩ rfl]
      simp only [List.filter_cons, h, if_true, List.length_cons, List.foldl_cons,
        Prod.mk.injEq, PgState.mk.injEq]
      refine ⟨by omega, trivial, trivial, by omega⟩
    · have h2 : execOk r = false := by simpa using h
      have happ : wrStep execOk (n, st) r
          = (n, ⟨st.committed, [], st.commitCount⟩) := by
        simp [wrStep, write_tender, h2]
      rw [happ, ih n ⟨st.committed, [], st.commitCount⟩ rfl]
      simp [List.filter_cons, h2]

theorem foldl_upsert_of_nodup :
    ∀ (l acc : List TRow), (((acc ++ l).map TRow.resourceId).Nodup) →
    l.foldl upsertRow acc = acc ++ l := by
  intro l
  induction l with
  | nil => simp
  | cons r rest ih =>
    intro acc h
    have hmem : r.resourceId ∉ acc.map TRow.resourceId := by
      intro hin
      rw [List.map_append] at h
      have hd := (List.nodup_append.mp h).2.2
      exact hd hin (by simp)
    have hany : acc.any (fun x => x.resourceId == r.resourceId) = false := by
      rw [List.any_eq_false]
      intro x hx
      simp only [beq_iff_eq]
      intro he
      exact hmem (he ▸ List.mem_map_of_mem TRow.resourceId hx)
    have hstep : upsertRow acc r = acc ++ [r] := by
      simp [upsertRow, hany]
    simp only [List.foldl, hstep]
    rw [ih (acc ++ [r]) (by simpa using h)]
    simp

theorem commitTraceAux_eq (execOk : TRow → Bool) :
    ∀ (rs : List TRow) (st : PgState) (idx : ℕ),
    commitTraceAux execOk st idx rs = successPositionsAux execOk idx rs := by
  intro rs
  induction rs with
  | nil => intro st idx; rfl
  | cons r rest ih =>
    intro st idx
    by_cases h : execOk r = true
    · simp [commitTraceAux, successPositionsAux, write_tender, h, ih]
    · have h2 : execOk r = false := by simpa using h
      simp [commitTraceAux, successPositionsAux, write_tender, h2, ih]

/-- Claim C2 (counterexample): writing two records (both succeeding) through
the relational-store writer commits during record 1 and during record 2 — a
commit immediately after each individual insert/upsert — which matches no
fixed batch size `b ≥ 2`. -/
theorem c2_counterexample :
    commitTrace (fun _ => true) pgInit [⟨1, "a"⟩, ⟨2, "b"⟩] = [1, 2] ∧
    ¬ (∃ b, 2 ≤ b ∧ ([1, 2] : List ℕ) = batchPositions b 2) := by
  constructor
  · rfl
  · rintro ⟨b, hb, h⟩
    have h1 : (1 : ℕ) % b = 1 := Nat.mod_eq_of_lt (by omega)
    rw [show batchPositions b 2 = [2] by
      simp [batchPositions, List.range', List.filter, h1]] at h
    simp at h

/-- Claim C2 (amended): `write_tender` commits after every successful
insert/upsert, so commits are per-record — the commit trace is exactly the
list of positions of the successful records, and the number of commits equals
the number of successfully written records (no batch-size boundary is
involved). -/
theorem c2_theorem (execOk : TRow → Bool) (rs : List TRow) :
    commitTrace execOk pgInit rs = successPositionsAux execOk 1 rs ∧
    (write_records_tenders execOk pgInit rs).2.commitCount = (rs.filter execOk).length := by
  constructor
  · exact commitTraceAux_eq execOk rs pgInit 1
  · rw [write_records_tenders, write_records_tenders_aux execOk rs 0 pgInit rfl]
    simp [pgInit]

/-- Claim C6: if in a batch exactly record `bad` fails at the store level
(its statement raises), the writer rolls back only that statement: all other
records remain committed, in order, and the success count is the number of
non-failing records. -/
theorem c6_theorem (execOk : TRow → Bool) (pre post : List TRow) (bad : TRow)
    (hpre : ∀ r ∈ pre, execOk r = true) (hpost : ∀ r ∈ post, execOk r = true)
    (hbad : execOk bad = false)
    (hnd : (((pre ++ bad :: post).map TRow.resourceId).Nodup)) :
    (write_records_tenders execOk pgInit (pre ++ bad :: post)).2.committed = pre ++ post ∧
    (write_records_tenders execOk pgInit (pre ++ bad :: post)).1 = pre.length + post.length := by
  have hfilter : (pre ++ bad :: post).filter execOk = pre ++ post := by
    rw [List.filter_append, List.filter_cons, List.filter_eq_self.mpr hpre,
        List.filter_eq_self.mpr hpost]
    simp [hbad]
  have hnd2 : ((([] : List TRow) ++ (pre ++ post)).map TRow.resourceId).Nodup := by
    simp only [List.nil_append]
    have hsub : List.Sublist ((pre ++ post).map TRow.resourceId)
        ((pre ++ bad :: post).map TRow.resourceId) := by
      apply List.Sublist.map
      apply List.Sublist.append (List.Sublist.refl pre)
      exact List.sublist_cons_self bad post
    exact List.Nodup.sublist hsub hnd
  rw [write_records_tenders, write_records_tenders_aux execOk _ 0 pgInit rfl]
  rw [hfilter]
  constructor
  · simpa using foldl_upsert_of_nodup (pre ++ post) [] hnd2
  · simp

/-- Claim C6 (witness): a concrete three-record batch whose middle record
fails leaves records 1 and 3 committed, with two successes counted. -/
theorem c6_witness :
    (write_records_tenders (fun r => !(r.resourceId == 2)) pgInit
      [⟨1, "a"⟩, ⟨2, "b"⟩, ⟨3, "c"⟩]).2.committed = [⟨1, "a"⟩, ⟨3, "c"⟩] ∧
    (write_records_tenders (fun r => !(r.resourceId == 2)) pgInit
      [⟨1, "a"⟩, ⟨2, "b"⟩, ⟨3, "c"⟩]).1 = 2 := by
  have h := c6_theorem (fun r => !(r.resourceId == 2)) [⟨1, "a"⟩] [⟨3, "c"⟩] ⟨2, "b"⟩
    (by decide) (by decide) (by decide) (by decide)
  simpa using h

/-! ### Claims C9 and C4: CPV code extraction -/

theorem mainClassFold_inv (lookup : String → Option String) (desc : String) :
    ∀ (codes : List String) (found : List CpvMatch),
    (∀ m ∈ found, CpvInv lookup m) →
    ∀ m ∈ mainClassFold lookup desc found codes, CpvInv lookup m := by
  intro codes
  induction codes with
  | nil => intro found h; simpa [mainClassFold] using h
  | cons c rest ih =>
    intro found h
    have hstep : mainClassFold lookup desc found (c :: rest) =
        mainClassFold lookup desc
          (if found.any (fun cpv => cpv.code == c) then found
           else found ++ [⟨c, desc, "pdf_main_classification", (lookup c).isSome⟩]) rest := by
      simp [mainClassFold]
    rw [hstep]
    apply ih
    by_cases hc : found.any (fun cpv => cpv.code == c) = true
    · simpa [hc] using h
    · intro m hm
      rw [if_neg hc] at hm
      rcases List.mem_append.mp hm with hm2 | hm2
      · exact h m hm2
      · rcases List.mem_singleton.mp hm2 with rfl
        exact Or.inl ⟨rfl, rfl⟩

theorem validatedFold_inv (lookup : String → Option String) (src : String) :
    ∀ (codes : List String) (found : List CpvMatch),
    (∀ m ∈ found, CpvInv lookup m) →
    ∀ m ∈ validatedFold lookup src found codes, CpvInv lookup m := by
  intro codes
  induction codes with
  | nil => intro found h; simpa [validatedFold] using h
  | cons c rest ih =>
    intro found h
    rcases hc : lookup c with _ | desc
    · have hstep : validatedFold lookup src found (c :: rest) =
          validatedFold lookup src found rest := by
        simp [validatedFold, hc]
      rw [hstep]; exact ih found h
    · have hstep : validatedFold lookup src found (c :: rest) =
          validatedFold lookup src
            (if found.any (fun cpv => cpv.code == c) then found
             else found ++ [⟨c, desc, src, true⟩]) rest := by
        simp [validatedFold, hc]
      rw [hstep]
      apply ih
      by_cases hdup : found.any (fun cpv => cpv.code == c) = true
      · simpa [hdup] using h
      · intro m hm
        rw [if_neg hdup] at hm
        rcases List.mem_append.mp hm with hm2 | hm2
        · exact h m hm2
        · rcases List.mem_singleton.mp hm2 with rfl
          exact Or.inr ⟨rfl, by simp [hc]⟩

theorem sectionsFold_inv (lookup : String → Option String) :
    ∀ (sections : List (String × PyVal)) (found : List CpvMatch),
    (∀ m ∈ found, CpvInv lookup m) →
    ∀ m ∈ sectionsFold lookup found sections, CpvInv lookup m := by
  intro sections
  induction sections with
  | nil => intro found h; simpa [sectionsFold] using h
  | cons sec rest ih =>
    intro found h
    rcases sec with ⟨name, v⟩
    rcases v with _ | text | n | f | b | es | xs
    all_goals
      simp only [sectionsFold, List.foldl_cons] at *
    case str =>
      exact ih _ (validatedFold_inv lookup ("pdf_content_" ++ name) (findall8 text) found h)
    all_goals exact ih _ h

theorem cpvPhase1_inv (lookup : String → Option String) (es : List (String × PyVal))
    (f : List CpvMatch) (h : cpvPhase1 lookup es = .ok f) :
    ∀ m ∈ f, CpvInv lookup m := by
  rw [cpvPhase1] at h
  split at h
  · split at h
    · rcases Except.ok.inj h with rfl
      rename_i s _
      exact mainClassFold_inv lookup s (findall8 s) [] (by simp)
    · exact absurd h (by simp)
  · rcases Except.ok.inj h with rfl
    simp

theorem cpvPhase2_inv (lookup : String → Option String) (es : List (String × PyVal))
    (found : List CpvMatch) (hf : ∀ m ∈ found, CpvInv lookup m) :
    ∀ m ∈ cpvPhase2 lookup es found, CpvInv lookup m := by
  rw [cpvPhase2]
  split
  · rename_i sections _
    exact sectionsFold_inv lookup sections found hf
  · exact hf

theorem cpvPhase3_inv (lookup : String → Option String) (es : List (String × PyVal))
    (found f : List CpvMatch) (hf : ∀ m ∈ found, CpvInv lookup m)
    (h : cpvPhase3 lookup es found = .ok f) :
    ∀ m ∈ f, CpvInv lookup m := by
  rw [cpvPhase3] at h
  split at h
  · split at h
    · rcases Except.ok.inj h with rfl
      rename_i s _
      exact validatedFold_inv lookup "pdf_full_text" (findall8 s) found hf
    · exact absurd h (by simp)
  · rcases Except.ok.inj h with rfl
    exact hf

theorem cpvPdfPhase_inv (lookup : String → Option String)
    (record : List (String × PyVal)) (found : List CpvMatch)
    (h : cpvPdfPhase lookup record = .ok found) :
    ∀ m ∈ found, CpvInv lookup m := by
  rw [cpvPdfPhase] at h
  split at h
  · rename_i es _
    split at h
    · rcases Except.ok.inj h with rfl
      simp
    · split at h
      · exact absurd h (by simp)
      · rename_i f1 heq1
        exact cpvPhase3_inv lookup es (cpvPhase2 lookup es f1) found
          (cpvPhase2_inv lookup es f1 (cpvPhase1_inv lookup es f1 heq1)) h
  · rcases Except.ok.inj h with rfl
    simp

/-- Claim C9: every CpvMatch in the extractor's output either originates from
the document classification field — kept regardless of dictionary membership,
its validity flag recording membership — or is validated with its code in the
reference dictionary; no free-text or section match appears unvalidated. -/
theorem c9_theorem (lookup : String → Option String) (record : List (String × PyVal))
    (l : List CpvMatch) (h : extract_cpv_codes lookup record = .ok l) :
    ∀ m ∈ l, CpvInv lookup m := by
  rw [extract_cpv_codes] at h
  split at h
  · exact absurd h (by simp)
  · rename_i found hfound
    rcases Except.ok.inj h with rfl
    exact validatedFold_inv lookup "text_search" (findall8 (searchableOf record)) found
      (cpvPdfPhase_inv lookup record found hfound)

/-- Claim C4: on the scenario record, for any dictionary without `99999999`,
extraction returns exactly one entry — code `72212731` with source
`pdf_main_classification` (its validity flag recording dictionary
membership) — and no entry for `99999999`: the classification-field
occurrence wins and the free-text duplicates are deduplicated or rejected. -/
theorem c4_theorem (lookup : String → Option String)
    (h99 : lookup "99999999" = Option.none) :
    extract_cpv_codes lookup c4rec = .ok [c4entry lookup] := by
  have h1 : cpvPdfPhase lookup c4rec = .ok [c4entry lookup] := rfl
  rw [extract_cpv_codes, h1]
  show Except.ok (validatedFold lookup "text_search" [c4entry lookup]
    (findall8 (searchableOf c4rec))) = Except.ok [c4entry lookup]
  rw [show findall8 (searchableOf c4rec) = ["72212731", "99999999"] from rfl]
  rw [validatedFold]
  simp only [List.foldl_cons, List.foldl_nil]
  rcases h72 : lookup "72212731" with _ | d
  · simp [h72, h99]
  · simp [h72, h99, c4entry]

/-- Claim C4 (witness): the theorem instantiated at the concrete dictionary
`c4lk`. -/
theorem c4_witness : extract_cpv_codes c4lk c4rec = .ok [c4entry c4lk] :=
  c4_theorem c4lk rfl

/-- Claim C9 (witness): the invariant holds of the single entry extracted
from the C4 scenario record with the concrete dictionary `c4lk`. -/
theorem c9_witness : CpvInv c4lk (c4entry c4lk) :=
  c9_theorem c4lk c4rec [c4entry c4lk] rfl (c4entry c4lk) (by simp)

/-! ### Claim C3: classifier fallback on unrecoverable responses -/

/-- Claim C3: when no JSON can be recovered from the response text by the
repair ladder (the fence-stripped text fails to parse, and the quote-fixed
brace span is absent or also fails to parse), the classifier returns — with
no error value — the fallback enrichment holding the truncated raw text under
the single `full_text` heading plus the `parse_error` field, and the enriched
record is marked `pdf_parsed = True` with that fallback as its `pdf_data`. -/
theorem c3_theorem (jsonLoads : String → Except String PyVal)
    (responseText textContent je : String) (record : List (String × PyVal))
    (h1 : jsonLoads (stripFences responseText) = .error je)
    (h2 : ∀ span, braceSpan (quoteFix (stripFences responseText)) = some span →
          ∃ e2, jsonLoads span = .error e2)
    (h3 : pyTruthy (dgetD record "notice_pdf_url" (.str "")) = true)
    (h4 : textContent ≠ "") :
    parse_pdf_with_ollama jsonLoads (.response responseText) textContent =
      parseErrorFallback textContent je ∧
    dgetD (enrich_record_with_pdf jsonLoads textContent (.response responseText) record)
      "pdf_parsed" .none = .bool true ∧
    dgetD (enrich_record_with_pdf jsonLoads textContent (.response responseText) record)
      "pdf_data" .none = parseErrorFallback textContent je := by
  have hp : parse_pdf_with_ollama jsonLoads (.response responseText) textContent =
      parseErrorFallback textContent je := by
    rw [parse_pdf_with_ollama]
    simp only [h1]
    rcases hbs : braceSpan (quoteFix (stripFences responseText)) with _ | span
    · simp [hbs]
    · obtain ⟨e2, he2⟩ := h2 span hbs
      simp [hbs, he2]
  have htr : pyTruthy (parseErrorFallback textContent je) = true := rfl
  have hen : enrich_record_with_pdf jsonLoads textContent (.response responseText) record =
      dset (dset record "pdf_data" (parseErrorFallback textContent je))
        "pdf_parsed" (.bool true) := by
    rw [enrich_record_with_pdf]
    simp only [h3, Bool.not_true, Bool.false_eq_true, if_false, h4, ite_false, hp, htr, if_true]
  refine ⟨hp, ?_, ?_⟩
  · rw [hen, dgetD, dget_dset_self]
    rfl
  · rw [hen, dgetD, dget_dset_ne _ _ _ _ (by decide), dget_dset_self]
    rfl

/-- Claim C3 (witness): the theorem instantiated at a concrete unrecoverable
response (`"not json"` has no brace-delimited span). -/
theorem c3_witness :
    parse_pdf_with_ollama c3jp (.response "not json") "PDF TEXT" =
      parseErrorFallback "PDF TEXT" "Expecting value" ∧
    dgetD (enrich_record_with_pdf c3jp "PDF TEXT" (.response "not json") c3rec)
      "pdf_parsed" .none = .bool true ∧
    dgetD (enrich_record_with_pdf c3jp "PDF TEXT" (.response "not json") c3rec)
      "pdf_data" .none = parseErrorFallback "PDF TEXT" "Expecting value" :=
  c3_theorem c3jp "not json" "PDF TEXT" "Expecting value" c3rec rfl
    (fun span h => absurd h (by
      rw [show braceSpan (quoteFix (stripFences "not json")) = Option.none from rfl]
      exact fun h2 => Option.noConfusion h2))
    rfl (by decide)

/-! ### Claims C10 and C7: `coerce_types` frame and safety -/

theorem dget_some_mem (d : List (String × PyVal)) (k : String) (v : PyVal)
    (h : dget d k = some v) : (k, v) ∈ d := by
  induction d with
  | nil => cases h
  | cons kv rest ih =>
    obtain ⟨k1, v1⟩ := kv
    rw [dget] at h
    by_cases hk : k1 = k
    · rw [if_pos hk] at h
      rcases Option.some.inj h with rfl
      subst hk
      exact List.mem_cons_self _ _
    · rw [if_neg hk] at h
      exact List.mem_cons_of_mem _ (ih h)

theorem dget_coerceResId_ne (d : List (String × PyVal)) (k : String)
    (h : k ≠ "resource_id") : dget (coerceResId d) k = dget d k := by
  rw [coerceResId]
  split
  · split <;> rw [dget_dset_ne _ _ _ _ (Ne.symm h)]
  · rfl

theorem dget_coerceDates_ne (d : List (String × PyVal)) (k : String)
    (h2 : k ≠ "date_published_parsed") (h3 : k ≠ "submission_deadline_parsed")
    (h4 : k ≠ "award_date_parsed") : dget (coerceDates d) k = dget d k := by
  rw [coerceDates]
  simp only [dget_dset_ne _ _ _ _ (Ne.symm h4), dget_dset_ne _ _ _ _ (Ne.symm h3),
    dget_dset_ne _ _ _ _ (Ne.symm h2)]

theorem dget_coerceValue_ne (d : List (String × PyVal)) (k : String)
    (h : k ≠ "estimated_value_numeric") : dget (coerceValue d) k = dget d k := by
  rw [coerceValue, dget_dset_ne _ _ _ _ (Ne.symm h)]

theorem dget_coerceCycle_ne (d : List (String × PyVal)) (k : String)
    (h : k ≠ "cycle_numeric") : dget (coerceCycle d) k = dget d k := by
  rw [coerceCycle, dget_dset_ne _ _ _ _ (Ne.symm h)]

theorem dget_coerceFlags_ne (d : List (String × PyVal)) (k : String)
    (h7 : k ≠ "has_pdf_url") (h8 : k ≠ "has_estimated_value") :
    dget (coerceFlags d) k = dget d k := by
  rw [coerceFlags]
  simp only [dget_dset_ne _ _ _ _ (Ne.symm h8), dget_dset_ne _ _ _ _ (Ne.symm h7)]

theorem dget_coercePure_ne (r : List (String × PyVal)) (k : String)
    (h1 : k ≠ "resource_id") (h2 : k ≠ "date_published_parsed")
    (h3 : k ≠ "submission_deadline_parsed") (h4 : k ≠ "award_date_parsed")
    (h5 : k ≠ "estimated_value_numeric") (h6 : k ≠ "cycle_numeric")
    (h7 : k ≠ "has_pdf_url") (h8 : k ≠ "has_estimated_value") :
    dget (coercePure r) k = dget r k := by
  rw [coercePure, dget_coerceFlags_ne _ _ h7 h8, dget_coerceCycle_ne _ _ h6,
    dget_coerceValue_ne _ _ h5, dget_coerceDates_ne _ _ h2 h3 h4,
    dget_coerceResId_ne _ _ h1]

/-- Claim C10 (amended): for a record with unique keys that carries none of
the derived keys, every key other than `resource_id` appears in the output
bound to its original value (a pure-functional embedding makes the
no-mutation half of the claim intrinsic: `coerce_types` operates on a copy by
construction). -/
theorem c10_theorem (r out : List (String × PyVal)) (k : String) (v : PyVal)
    (hnd : (r.map Prod.fst).Nodup)
    (hfresh : ∀ dk ∈ c10derivedKeys, dget r dk = Option.none)
    (hok : coerce_types r = .ok out) (hmem : (k, v) ∈ r)
    (hk : k ≠ "resource_id") : dget out k = some v := by
  have hkv : dget r k = some v := dget_of_mem_nodup r k v hnd hmem
  have hne : ∀ dk ∈ c10derivedKeys, k ≠ dk := by
    intro dk hdk he
    rw [he, hfresh dk hdk] at hkv
    exact Option.noConfusion hkv
  have h2 := hne "date_published_parsed" (by simp [c10derivedKeys])
  have h3 := hne "submission_deadline_parsed" (by simp [c10derivedKeys])
  have h4 := hne "award_date_parsed" (by simp [c10derivedKeys])
  have h5 := hne "estimated_value_numeric" (by simp [c10derivedKeys])
  have h6 := hne "cycle_numeric" (by simp [c10derivedKeys])
  have h7 := hne "has_pdf_url" (by simp [c10derivedKeys])
  have h8 := hne "has_estimated_value" (by simp [c10derivedKeys])
  have h9 := hne "is_open" (by simp [c10derivedKeys])
  rw [coerce_types] at hok
  split at hok
  · rcases Except.ok.inj hok with rfl
    rw [dget_dset_ne _ _ _ _ (Ne.symm h9),
      dget_coercePure_ne r k hk h2 h3 h4 h5 h6 h7 h8]
    exact hkv
  · exact absurd hok (by simp)

/-- Claim C10 (counterexample): a record that already carries the key
`is_open` (a key other than `resource_id`) does NOT keep its original value —
`coerce_types` overwrites it with the derived boolean. -/
theorem c10_counterexample :
    coerce_types [("is_open", PyVal.str "x")] = .ok c10out ∧
    dget c10out "is_open" = some (PyVal.bool false) ∧
    PyVal.bool false ≠ PyVal.str "x" :=
  ⟨rfl, rfl, fun h => PyVal.noConfusion h⟩

/-- Claim C10 (witness): the amended theorem instantiated at a concrete
record without derived keys — `title` keeps its original value. -/
theorem c10_witness : dget c10wout "title" = some (PyVal.str "T") :=
  c10_theorem c10wrec c10wout "title" (PyVal.str "T") (by decide)
    (by intro dk hdk; fin_cases hdk <;> rfl) rfl
    (List.mem_cons_self _ _) (by decide)

theorem parseDateVal_isStr (v : PyVal) (h : isStrVal v = true) :
    isStrVal (parseDateVal v) = true := by
  rcases v with _ | s | n | f | b | es | xs
  case str =>
    rw [parseDateVal]
    split
    · rfl
    · rfl
  all_goals exact absurd h (by simp [isStrVal])

theorem dgetD_isStrVal (d : List (String × PyVal))
    (hd : ∀ kv ∈ d, ∃ s, kv.2 = PyVal.str s) (k dflt : String) :
    isStrVal (dgetD d k (.str dflt)) = true := by
  rw [dgetD]
  rcases hv : dget d k with _ | v
  · rfl
  · obtain ⟨s, hs⟩ := hd (k, v) (dget_some_mem d k v hv)
    simp only at hs
    simp [hs, isStrVal]

theorem estNumOf_shape (d : List (String × PyVal)) :
    isFloatOrNone (estNumOf d) = true := by
  rw [estNumOf]
  split
  · split
    · rfl
    · rfl
  · rfl

theorem cycleNumOf_shape (d : List (String × PyVal)) :
    isIntOrNone (cycleNumOf d) = true := by
  rw [cycleNumOf]
  split
  · split
    · rfl
    · rfl
  · rfl

/-- Claim C7 (amended): on every raw record of string fields, `coerce_types`
returns normally, and every derived field is well-typed — parsed dates are
strings, `estimated_value_numeric` is a float or the absent marker,
`cycle_numeric` an integer or the absent marker, the flags booleans — except
that a present-but-falsy identifier (e.g. the empty string) is left unchanged
rather than replaced by the absent marker; a truthy identifier is coerced to
an integer or the absent marker. -/
theorem c7_theorem (r : List (String × PyVal)) (hr : StringRecord r) :
    ∃ out, coerce_types r = .ok out ∧
      isStrVal (dgetD out "date_published_parsed" .none) = true ∧
      isStrVal (dgetD out "submission_deadline_parsed" .none) = true ∧
      isStrVal (dgetD out "award_date_parsed" .none) = true ∧
      isFloatOrNone (dgetD out "estimated_value_numeric" .none) = true ∧
      isIntOrNone (dgetD out "cycle_numeric" .none) = true ∧
      isBoolVal (dgetD out "has_pdf_url" .none) = true ∧
      isBoolVal (dgetD out "has_estimated_value" .none) = true ∧
      isBoolVal (dgetD out "is_open" .none) = true ∧
      (∀ v, dget out "resource_id" = some v →
        isIntOrNone v = true ∨ (pyTruthy v = false ∧ dget r "resource_id" = some v)) := by
  have hst : dget (coercePure r) "status" = dget r "status" :=
    dget_coercePure_ne r "status" (by decide) (by decide) (by decide) (by decide)
      (by decide) (by decide) (by decide) (by decide)
  have hstat : ∃ sl, pyLowerVal (dgetD (coercePure r) "status" (.str "")) = .ok sl := by
    rw [dgetD, hst]
    rcases hv : dget r "status" with _ | v
    · exact ⟨"", rfl⟩
    · obtain ⟨s, hsv⟩ := hr ("status", v) (dget_some_mem r "status" v hv)
      simp only at hsv
      subst hsv
      exact ⟨_, rfl⟩
  obtain ⟨sl, hsl⟩ := hstat
  refine ⟨dset (coercePure r) "is_open" (.bool (sl == "open")), ?_, ?_, ?_, ?_, ?_, ?_, ?_, ?_, ?_, ?_⟩
  · rw [coerce_types]
    rw [hsl]
  · rw [dgetD, dget_dset_ne _ _ _ _ (by decide), coercePure,
      dget_coerceFlags_ne _ _ (by decide) (by decide), dget_coerceCycle_ne _ _ (by decide),
      dget_coerceValue_ne _ _ (by decide), coerceDates]
    simp only [dget_dset_ne _ _ _ _ (by decide : ("award_date_parsed" : String) ≠ "date_published_parsed"),
      dget_dset_ne _ _ _ _ (by decide : ("submission_deadline_parsed" : String) ≠ "date_published_parsed"),
      dget_dset_self]
    simp only [Option.getD_some]
    apply parseDateVal_isStr
    have he : dget (coerceResId r) "date_published" = dget r "date_published" :=
      dget_coerceResId_ne _ _ (by decide)
    rw [dgetD, he, ← dgetD]
    exact dgetD_isStrVal r hr _ _
  · rw [dgetD, dget_dset_ne _ _ _ _ (by decide), coercePure,
      dget_coerceFlags_ne _ _ (by decide) (by decide), dget_coerceCycle_ne _ _ (by decide),
      dget_coerceValue_ne _ _ (by decide), coerceDates]
    simp only [dget_dset_ne _ _ _ _ (by decide : ("award_date_parsed" : String) ≠ "submission_deadline_parsed"),
      dget_dset_self]
    simp only [Option.getD_some]
    apply parseDateVal_isStr
    have he : dget (dset (coerceResId r) "date_published_parsed"
        (parseDateVal (dgetD (coerceResId r) "date_published" (.str ""))))
        "submission_deadline" = dget r "submission_deadline" := by
      rw [dget_dset_ne _ _ _ _ (by decide), dget_coerceResId_ne _ _ (by decide)]
    rw [dgetD, he, ← dgetD]
    exact dgetD_isStrVal r hr _ _
  · rw [dgetD, dget_dset_ne _ _ _ _ (by decide), coercePure,
      dget_coerceFlags_ne _ _ (by decide) (by decide), dget_coerceCycle_ne _ _ (by decide),
      dget_coerceValue_ne _ _ (by decide), coerceDates]
    simp only [dget_dset_self, Option.getD_some]
    apply parseDateVal_isStr
    have he : dget (dset (dset (coerceResId r) "date_published_parsed"
        (parseDateVal (dgetD (coerceResId r) "date_published" (.str ""))))
        "submission_deadline_parsed"
        (parseDateVal (dgetD (dset (coerceResId r) "date_published_parsed"
          (parseDateVal (dgetD (coerceResId r) "date_published" (.str ""))))
          "submission_deadline" (.str ""))))
        "award_date" = dget r "award_date" := by
      rw [dget_dset_ne _ _ _ _ (by decide), dget_dset_ne _ _ _ _ (by decide),
        dget_coerceResId_ne _ _ (by decide)]
    rw [dgetD, he, ← dgetD]
    exact dgetD_isStrVal r hr _ _
  · rw [dgetD, dget_dset_ne _ _ _ _ (by decide), coercePure,
      dget_coerceFlags_ne _ _ (by decide) (by decide), dget_coerceCycle_ne _ _ (by decide),
      coerceValue, dget_dset_self]
    simp only [Option.getD_some]
    exact estNumOf_shape _
  · rw [dgetD, dget_dset_ne _ _ _ _ (by decide), coercePure,
      dget_coerceFlags_ne _ _ (by decide) (by decide), coerceCycle, dget_dset_self]
    simp only [Option.getD_some]
    exact cycleNumOf_shape _
  · rw [dgetD, dget_dset_ne _ _ _ _ (by decide), coercePure, coerceFlags]
    simp only [dget_dset_ne _ _ _ _ (by decide : ("has_estimated_value" : String) ≠ "has_pdf_url"),
      dget_dset_self, Option.getD_some]
    rfl
  · rw [dgetD, dget_dset_ne _ _ _ _ (by decide), coercePure, coerceFlags]
    simp only [dget_dset_self, Option.getD_some]
    rfl
  · rw [dgetD, dget_dset_self]
    rfl
  · intro v hv
    rw [dget_dset_ne _ _ _ _ (by decide), coercePure,
      dget_coerceFlags_ne _ _ (by decide) (by decide), dget_coerceCycle_ne _ _ (by decide),
      dget_coerceValue_ne _ _ (by decide), dget_coerceDates_ne _ _ (by decide) (by decide) (by decide),
      coerceResId] at hv
    split at hv
    · split at hv
      · rw [dget_dset_self] at hv
        rcases Option.some.inj hv with rfl
        exact Or.inl rfl
      · rw [dget_dset_self] at hv
        rcases Option.some.inj hv with rfl
        exact Or.inl rfl
    · rename_i ht
      have ht2 : pyTruthy (dgetD r "resource_id" .none) = false := by
        simpa using ht
      rw [dgetD, hv] at ht2
      exact Or.inr ⟨by simpa using ht2, hv⟩

/-- Claim C7 (counterexample): a record with a present-but-empty identifier
keeps the empty string in `resource_id` — neither a valid integer coercion
nor the absent marker the claim requires. -/
theorem c7_counterexample :
    (coerce_types [("resource_id", PyVal.str "")]).map
      (fun out => dgetD out "resource_id" PyVal.none) = .ok (PyVal.str "") ∧
    (coerce_types [("resource_id", PyVal.str "")]).map
      (fun out => isIntOrNone (dgetD out "resource_id" PyVal.none)) = .ok false :=
  ⟨rfl, rfl⟩

/-- Claim C7 (witness): the amended theorem instantiated at a concrete
string record. -/
theorem c7_witness :
    ∃ out, coerce_types [("resource_id", PyVal.str "6972976"),
        ("estimated_value", PyVal.str "1,500,000"), ("status", PyVal.str "Open")] = .ok out ∧
      isStrVal (dgetD out "date_published_parsed" .none) = true ∧
      isStrVal (dgetD out "submission_deadline_parsed" .none) = true ∧
      isStrVal (dgetD out "award_date_parsed" .none) = true ∧
      isFloatOrNone (dgetD out "estimated_value_numeric" .none) = true ∧
      isIntOrNone (dgetD out "cycle_numeric" .none) = true ∧
      isBoolVal (dgetD out "has_pdf_url" .none) = true ∧
      isBoolVal (dgetD out "has_estimated_value" .none) = true ∧
      isBoolVal (dgetD out "is_open" .none) = true ∧
      (∀ v, dget out "resource_id" = some v →
        isIntOrNone v = true ∨ (pyTruthy v = false ∧
          dget [("resource_id", PyVal.str "6972976"),
            ("estimated_value", PyVal.str "1,500,000"),
            ("status", PyVal.str "Open")] "resource_id" = some v)) :=
  c7_theorem _ (by
    intro kv hkv
    fin_cases hkv
    · exact ⟨"6972976", rfl⟩
    · exact ⟨"1,500,000", rfl⟩
    · exact ⟨"Open", rfl⟩)

/-! ### Claim C5: record processor output shape -/

theorem flattenParsed_dict (p : PyVal) (tc : String) (v : PyVal)
    (h : flattenParsed p tc = .ok v) : ∃ es, v = .dict es := by
  rcases p with _ | s | n | f | b | es | xs
  case dict =>
    rw [flattenParsed] at h
    rcases hm : dgetD es "metadata" (.dict []) with _ | s | n | f | b | mes | xs
    all_goals rw [hm] at h
    case dict =>
      simp only [] at h
      exact ⟨_, (Except.ok.inj h).symm⟩
    all_goals exact Except.noConfusion h
  all_goals rw [flattenParsed] at h
  all_goals exact Except.noConfusion h

theorem parse_pdf_isdict (jp : String → Except String PyVal) (oc : OllamaOutcome)
    (tc : String) : ∃ es, parse_pdf_with_ollama jp oc tc = .dict es := by
  rcases oc with _ | _ | rt
  · exact ⟨[], rfl⟩
  · exact ⟨_, rfl⟩
  · rcases h1 : jp (stripFences rt) with je | parsed
    · rcases hbs : braceSpan (quoteFix (stripFences rt)) with _ | span
      · simp only [parse_pdf_with_ollama, h1, hbs, parseErrorFallback]
        exact ⟨_, rfl⟩
      · rcases h2 : jp span with je2 | parsed2
        · simp only [parse_pdf_with_ollama, h1, hbs, h2, parseErrorFallback]
          exact ⟨_, rfl⟩
        · rcases h3 : flattenParsed parsed2 tc with e | v
          · simp only [parse_pdf_with_ollama, h1, hbs, h2, h3, rawTextFallback]
            exact ⟨_, rfl⟩
          · simp only [parse_pdf_with_ollama, h1, hbs, h2, h3]
            exact flattenParsed_dict parsed2 tc v h3
    · rcases h3 : flattenParsed parsed tc with e | v
      · simp only [parse_pdf_with_ollama, h1, h3, rawTextFallback]
        exact ⟨_, rfl⟩
      · simp only [parse_pdf_with_ollama, h1, h3]
        exact flattenParsed_dict parsed tc v h3

theorem enrich_fields (jp : String → Except String PyVal) (ft : String)
    (oc : OllamaOutcome) (rec : List (String × PyVal)) :
    ∃ pd, dget (enrich_record_with_pdf jp ft oc rec) "pdf_data" = some pd ∧
      dget (enrich_record_with_pdf jp ft oc rec) "pdf_parsed" = some (.bool (pyTruthy pd)) ∧
      (pd = .none ∨ ∃ es, pd = .dict es) := by
  simp only [enrich_record_with_pdf]
  split
  · exact ⟨.none, by rw [dget_dset_ne _ _ _ _ (by decide), dget_dset_self],
      by rw [dget_dset_self]; rfl, Or.inl rfl⟩
  · split
    · exact ⟨.none, by rw [dget_dset_ne _ _ _ _ (by decide), dget_dset_self],
        by rw [dget_dset_self]; rfl, Or.inl rfl⟩
    · split
      · rename_i htr
        obtain ⟨es, hes⟩ := parse_pdf_isdict jp oc ft
        refine ⟨parse_pdf_with_ollama jp oc ft,
          by rw [dget_dset_ne _ _ _ _ (by decide), dget_dset_self],
          by rw [dget_dset_self, htr], Or.inr ⟨es, hes⟩⟩
      · exact ⟨.none, by rw [dget_dset_ne _ _ _ _ (by decide), dget_dset_self],
          by rw [dget_dset_self]; rfl, Or.inl rfl⟩

theorem pdfRecordOf_ok (jp : String → Except String PyVal) (ft : String)
    (oc : OllamaOutcome) (tender : List (String × PyVal)) (pp : Bool) :
    ∃ po, pdfRecordOf tender (enrichedOf jp ft oc tender pp)
      (pp && pyTruthy (dgetD tender "has_pdf_url" .none)) = .ok po := by
  rw [pdfRecordOf]
  split
  · rename_i hcond
    simp only [Bool.and_eq_true] at hcond
    obtain ⟨⟨⟨hpp, hx⟩, _⟩, htr⟩ := hcond
    have hbranch : (pp && pyTruthy (dgetD tender "has_pdf_url" .none)) = true := by
      simp [hpp, hx]
    rw [enrichedOf, if_pos hbranch] at htr ⊢
    obtain ⟨pd, hpd, _, hshape⟩ := enrich_fields jp ft oc tender
    rw [dgetD, hpd, Option.getD_some] at htr ⊢
    rcases hshape with rfl | ⟨es, rfl⟩
    · exact absurd htr (by simp [pyTruthy])
    · exact ⟨_, rfl⟩
  · exact ⟨Option.none, rfl⟩

theorem cpvRecordOf_ok (lookup : String → Option String)
    (enriched : List (String × PyVal)) (rid : PyVal) (cc : Bool)
    (h : cc = true → ∃ l, extract_cpv_codes lookup enriched = .ok l) :
    ∃ co, cpvRecordOf lookup enriched rid cc = .ok co := by
  rw [cpvRecordOf]
  split
  · rename_i hcc
    obtain ⟨l, hl⟩ := h hcc
    simp only [check_cpv_codes, hl]
    split
    · exact ⟨_, rfl⟩
    · exact ⟨_, rfl⟩
  · exact ⟨Option.none, rfl⟩

/-- Claim C5 (amended): whenever type coercion succeeds and the code-checking
extraction over the (possibly enrichment-failed) record does not raise,
`process_record` returns exactly one core tender record — the coerced record,
regardless of the toggles and of the enrichment outcome (the enrichment
stage itself catches all its errors) — plus zero-or-one PDF record and
zero-or-one CPV record (`Option` values).  Without the code-checking proviso
this fails: see the counterexample, where a non-string classification field
produced by the LLM makes `re.findall` raise and the record emits nothing. -/
theorem c5_theorem (lookup : String → Option String)
    (jp : String → Except String PyVal) (ft : String) (oc : OllamaOutcome)
    (r tender : List (String × PyVal)) (pp cc : Bool)
    (h0 : coerce_types r = .ok tender)
    (hc : cc = true → ∃ l, extract_cpv_codes lookup
        (enrichedOf jp ft oc tender pp) = .ok l) :
    ∃ p c, process_record lookup jp ft oc r pp cc = .ok (tender, p, c) := by
  obtain ⟨po, hpo⟩ := pdfRecordOf_ok jp ft oc tender pp
  obtain ⟨co, hco⟩ := cpvRecordOf_ok lookup (enrichedOf jp ft oc tender pp)
    (dgetD tender "resource_id" .none) cc hc
  refine ⟨po, co, ?_⟩
  rw [process_record, h0]
  simp only [hpo, hco]

/-- Claim C5 (counterexample): with both toggles enabled and successful
enrichment whose `main_classification` is a (truthy) non-string, the
code-checking stage raises `TypeError` out of `process_record` — no tender
record is emitted for this input, so the claim's "exactly one core tender
record ... even when ... code-checking ... fail(s)" is false of the code. -/
theorem c5_counterexample :
    process_record (fun _ => Option.none) c5jp "text" (.response "r")
      c5cexrec true true = .error PyErr.typeError := rfl

/-- Claim C5 (witness): the amended theorem instantiated with both stages
disabled on a concrete record. -/
theorem c5_witness :
    ∃ p c, process_record (fun _ => Option.none) c3jp "" .connError
      c5wrec false false = .ok (c5wout, p, c) :=
  c5_theorem (fun _ => Option.none) c3jp "" .connError c5wrec c5wout false false rfl
    (fun h => absurd h (by decide))

/-! ### Claim C8: date coercion idempotence -/

theorem findSome_none {α β : Type} {f : α → Option β} :
    ∀ {l : List α}, (∀ a ∈ l, f a = Option.none) → l.findSome? f = Option.none
  | [], _ => rfl
  | a :: as, h => by
    rw [List.findSome?]
    rw [h a (by simp)]
    exact findSome_none (fun x hx => h x (by simp [hx]))

theorem digitOf_cases (m : ℕ) :
    digitOf m = '0' ∨ digitOf m = '1' ∨ digitOf m = '2' ∨ digitOf m = '3' ∨
    digitOf m = '4' ∨ digitOf m = '5' ∨ digitOf m = '6' ∨ digitOf m = '7' ∨
    digitOf m = '8' ∨ digitOf m = '9' := by
  rw [digitOf]
  split
  all_goals simp

theorem digitOf_isDigit (m : ℕ) : (digitOf m).isDigit = true := by
  rcases digitOf_cases m with h|h|h|h|h|h|h|h|h|h <;> rw [h] <;> decide

theorem digitOf_not_ws (m : ℕ) : isAsciiWS (digitOf m) = false := by
  rcases digitOf_cases m with h|h|h|h|h|h|h|h|h|h <;> rw [h] <;> decide

theorem isDigit_ne_of (c d : Char) (h : c.isDigit = true) (hd : d.isDigit = false) :
    c ≠ d := by
  intro he
  rw [he, hd] at h
  cases h

theorem mem_ite_singleton {α : Type} {c : Prop} [Decidable c] {x p : α}
    (h : p ∈ (if c then [x] else [])) : p = x := by
  split at h
  · simpa using h
  · cases h

theorem dayAlts_mem (c0 c1 : Char) (t : List Char) (p : ℕ × List Char)
    (hp : p ∈ dayAlts (c0 :: c1 :: t)) : p.2 = c1 :: t ∨ p.2 = t := by
  simp only [dayAlts, List.mem_append] at hp
  rcases hp with ((hp | hp) | hp) | hp
  · rw [mem_ite_singleton hp]
    exact Or.inr rfl
  · rw [mem_ite_singleton hp]
    exact Or.inr rfl
  · rw [mem_ite_singleton hp]
    exact Or.inr rfl
  · rw [mem_ite_singleton hp]
    exact Or.inl rfl

theorem matchFormat3_reject (c0 c1 c2 : Char) (t : List Char)
    (h1 : c1.isDigit = true) (h2 : c2.isDigit = true) :
    matchFormat3 (c0 :: c1 :: c2 :: t) = Option.none := by
  have hne1 : c1 ≠ '/' := isDigit_ne_of c1 '/' h1 (by decide)
  have hne2 : c2 ≠ '/' := isDigit_ne_of c2 '/' h2 (by decide)
  rw [matchFormat3]
  apply findSome_none
  intro p hp
  rcases dayAlts_mem c0 c1 (c2 :: t) p hp with hr | hr <;> rw [hr]
  · simp [expectChar, hne1]
  · simp [expectChar, hne2]

theorem matchFormat4_reject (c0 c1 c2 : Char) (t : List Char)
    (h1 : c1.isDigit = true) (h2 : c2.isDigit = true) :
    matchFormat4 (c0 :: c1 :: c2 :: t) = Option.none := by
  have hne1 : c1 ≠ '/' := isDigit_ne_of c1 '/' h1 (by decide)
  have hne2 : c2 ≠ '/' := isDigit_ne_of c2 '/' h2 (by decide)
  rw [matchFormat4]
  apply findSome_none
  intro p hp
  rcases dayAlts_mem c0 c1 (c2 :: t) p hp with hr | hr <;> rw [hr]
  · simp [expectChar, hne1]
  · simp [expectChar, hne2]

theorem matchFormat1_digitOf (k : ℕ) (rest : List Char) :
    matchFormat1 (digitOf k :: rest) = Option.none := by
  rcases digitOf_cases k with h|h|h|h|h|h|h|h|h|h <;> rw [h] <;> rfl

theorem isoChars_eq (dt : DateTime) :
    isoChars dt = digitOf (dt.year / 1000) :: digitOf (dt.year / 100) ::
      digitOf (dt.year / 10) :: digitOf dt.year :: '-' :: digitOf (dt.month / 10) ::
      digitOf dt.month :: '-' :: digitOf (dt.day / 10) :: digitOf dt.day :: 'T' ::
      digitOf (dt.hour / 10) :: digitOf dt.hour :: ':' :: digitOf (dt.minute / 10) ::
      digitOf dt.minute :: ':' :: digitOf (dt.second / 10) :: digitOf dt.second :: [] := rfl

theorem isoChars_not_ws (dt : DateTime) : ∀ c ∈ isoChars dt, isAsciiWS c = false := by
  intro c hc
  rw [isoChars_eq] at hc
  simp only [List.mem_cons, List.not_mem_nil, or_false] at hc
  rcases hc with rfl|rfl|rfl|rfl|rfl|rfl|rfl|rfl|rfl|rfl|rfl|rfl|rfl|rfl|rfl|rfl|rfl|rfl|rfl
  all_goals first | exact digitOf_not_ws _ | decide

theorem dropWhile_all_false {p : Char → Bool} :
    ∀ (l : List Char), (∀ c ∈ l, p c = false) → l.dropWhile p = l
  | [], _ => rfl
  | c :: rest, h => by
    rw [List.dropWhile_cons, h c (by simp)]
    simp

theorem stripChars_id (cs : List Char) (h : ∀ c ∈ cs, isAsciiWS c = false) :
    stripChars cs = cs := by
  rw [stripChars, dropWhile_all_false cs h,
    dropWhile_all_false _ (fun c hc => h c (List.mem_reverse.mp hc)),
    List.reverse_reverse]

theorem tryFormats_iso (dt : DateTime) : tryFormatsChars (isoChars dt) = Option.none := by
  have h1 : matchFormat1 (isoChars dt) = Option.none := by
    rw [isoChars_eq]
    exact matchFormat1_digitOf _ _
  have h3 : matchFormat3 (isoChars dt) = Option.none := by
    rw [isoChars_eq]
    exact matchFormat3_reject _ _ _ _ (digitOf_isDigit _) (digitOf_isDigit _)
  have h4 : matchFormat4 (isoChars dt) = Option.none := by
    rw [isoChars_eq]
    exact matchFormat4_reject _ _ _ _ (digitOf_isDigit _) (digitOf_isDigit _)
  rw [tryFormatsChars]
  apply findSome_none
  intro f hf
  simp only [List.mem_cons, List.not_mem_nil, or_false] at hf
  rcases hf with rfl | rfl | rfl | rfl
  · exact h1
  · exact h1
  · exact h3
  · exact h4

theorem isoformat_ne_empty (dt : DateTime) : isoformat dt ≠ "" := by
  intro h
  have h2 : isoChars dt = [] := congrArg String.data h
  rw [isoChars_eq] at h2
  exact List.noConfusion h2

/-- Claim C8: date coercion is idempotent — a string matching none of the
format list is returned unchanged (pass-through), and since the ISO output of
a successful parse matches none of the formats either (it starts with a
digit, and its second and third characters are digits, not a slash),
`parse_date (parse_date s) = parse_date s` for every string. -/
theorem c8_theorem :
    (∀ s : String, tryFormatsChars (stripChars s.data) = Option.none →
      parse_date s = s) ∧
    (∀ s : String, parse_date (parse_date s) = parse_date s) := by
  have hpass : ∀ s : String, tryFormatsChars (stripChars s.data) = Option.none →
      parse_date s = s := by
    intro s h
    rw [parse_date]
    split
    · rename_i hs
      exact hs.symm
    · rw [h]
  refine ⟨hpass, ?_⟩
  intro s
  by_cases hse : s = ""
  · subst hse
    rfl
  · rcases htf : tryFormatsChars (stripChars s.data) with _ | dt
    · have hp : parse_date s = s := hpass s htf
      rw [hp]
      exact hp
    · have hp : parse_date s = isoformat dt := by
        rw [parse_date, if_neg hse, htf]
      rw [hp]
      rw [parse_date, if_neg (isoformat_ne_empty dt)]
      have hdata : (isoformat dt).data = isoChars dt := rfl
      rw [hdata, stripChars_id _ (isoChars_not_ws dt), tryFormats_iso dt]

/-- Claim C8 (witness): the pass-through part at a non-matching string, and
idempotence at a matching legacy-format string. -/
theorem c8_witness :
    parse_date "hello" = "hello" ∧
    parse_date (parse_date "Mon Nov 17 16:51:52 GMT 2025") =
      parse_date "Mon Nov 17 16:51:52 GMT 2025" :=
  ⟨c8_theorem.1 "hello" (by rfl), c8_theorem.2 "Mon Nov 17 16:51:52 GMT 2025"⟩
